import Mathlib

/-!
Verification development for the Phase-1 in-memory todo engine
(`src/services/task_manager.py` and `src/models/task.py`).

The Python service is embedded shallowly:

* `datetime` values are modelled as a calendar date (year, month, day)
  plus a time-of-day component (`DateTime.time`, seconds past midnight);
  all due-date validation and the overdue query compare calendar dates
  only, exactly as the Python code compares `.date()` values.
* The system clock (`datetime.now()`) becomes an explicit `today : Date`
  parameter of every operation that consults it.
* The task dictionary `Dict[int, Task]` becomes an insertion-ordered
  list of tasks keyed by the `id` field; a genuine dict state never
  holds two entries with the same key, which corresponds to the
  `Nodup` hypothesis used where it matters.
* Python's `sorted` (a stable sort) is modelled by a stable insertion
  sort `sortByLe`.
* `raise ValueError` becomes an error value.  In-place mutation that
  happens before a raise is kept: mutating operations return the
  post-mutation store alongside the result, mirroring the fact that a
  Python exception does not roll back earlier field assignments.
-/

namespace Todo

/-! ## Calendar arithmetic (embedding Python `datetime` / `calendar`) -/

/-- A calendar date.  Mirrors the date part of Python `datetime`. -/
structure Date where
  year : Nat
  month : Nat
  day : Nat
deriving DecidableEq, Repr

/-- Gregorian leap-year test, as in Python `calendar.isleap`. -/
def isLeapYear (y : Nat) : Bool :=
  y % 4 == 0 && (y % 100 != 0 || y % 400 == 0)

/-- Number of days in a month, as returned by `calendar.monthrange(y, m)[1]`.
The fallback 31 for an out-of-range month is never used on valid dates. -/
def daysInMonth (y m : Nat) : Nat :=
  match m with
  | 1 => 31
  | 2 => if isLeapYear y then 29 else 28
  | 3 => 31
  | 4 => 30
  | 5 => 31
  | 6 => 30
  | 7 => 31
  | 8 => 31
  | 9 => 30
  | 10 => 31
  | 11 => 30
  | 12 => 31
  | _ => 31

/-- Days of year `y` that lie strictly before month `m`. -/
def daysBeforeMonth (y : Nat) : Nat → Nat
  | 0 => 0
  | 1 => 0
  | m + 2 => daysBeforeMonth y (m + 1) + daysInMonth y (m + 1)

/-- Number of leap years in `1..y-1` (Gregorian rule). -/
def preLeaps (y : Nat) : Nat :=
  (y - 1) / 4 - (y - 1) / 100 + (y - 1) / 400

/-- Linear day count of a date (a rata-die style ordinal): the theorems
below show that advancing one calendar day increments this count by 1,
so it is the yardstick for "plus one day" / "plus seven days". -/
def toOrd (d : Date) : Nat :=
  365 * d.year + preLeaps d.year + daysBeforeMonth d.year d.month + d.day

/-- `validB d` holds when `d` is a real calendar date. -/
def Date.validB (d : Date) : Bool :=
  decide (1 ≤ d.year) && decide (1 ≤ d.month) && decide (d.month ≤ 12) &&
  decide (1 ≤ d.day) && decide (d.day ≤ daysInMonth d.year d.month)

/-- Successor date: the next calendar day. -/
def Date.next (d : Date) : Date :=
  if d.day < daysInMonth d.year d.month then
    { d with day := d.day + 1 }
  else if d.month < 12 then
    { year := d.year, month := d.month + 1, day := 1 }
  else
    { year := d.year + 1, month := 1, day := 1 }

/-- Add `n` calendar days, the semantics of a Python day-count
`timedelta` on the date component. -/
def Date.addDays (d : Date) : Nat → Date
  | 0 => d
  | n + 1 => (d.addDays n).next

/-- Strict lexicographic comparison of calendar dates; embeds Python's
`date < date` comparison. -/
def Date.beforeB (a b : Date) : Bool :=
  if a.year < b.year then true
  else if b.year < a.year then false
  else if a.month < b.month then true
  else if b.month < a.month then false
  else decide (a.day < b.day)

/-- A `datetime` value: calendar date plus seconds past midnight.
`date` is what Python's `.date()` accessor returns. -/
structure DateTime where
  date : Date
  time : Nat
deriving DecidableEq, Repr

/-! ## String helpers (embedding the Python string primitives used) -/

/-- Python `str.strip()`: remove leading and trailing whitespace. -/
def strip (s : String) : String :=
  String.mk (((s.toList.dropWhile Char.isWhitespace).reverse.dropWhile
    Char.isWhitespace).reverse)

/-- Python `str.lower()`, code point by code point. -/
def strLower (s : String) : String :=
  String.mk (s.toList.map Char.toLower)

/-- Python's `needle in hay` substring test on code points. -/
def strContainsSub (hay needle : String) : Bool :=
  hay.toList.tails.any (fun t => needle.toList.isPrefixOf t)

/-- Python's code-point lexicographic `<` on strings, used by sort keys. -/
def charListLt : List Char → List Char → Bool
  | [], [] => false
  | [], _ :: _ => true
  | _ :: _, [] => false
  | a :: as, b :: bs =>
    if a < b then true else if b < a then false else charListLt as bs

/-! ## Data model (`src/models/task.py`) and validation constants -/

def MAX_TITLE_LENGTH : Nat := 200
def MAX_DESCRIPTION_LENGTH : Nat := 1000
def INITIAL_TASK_ID : Nat := 1
def VALID_PRIORITIES : List String := ["low", "medium", "high"]
def MAX_CATEGORY_LENGTH : Nat := 50
def DEFAULT_CATEGORY : String := "General"
def VALID_RECURRENCE_RULES : List String := ["daily", "weekly", "monthly"]

/-- The `Task` dataclass. -/
structure Task where
  id : Nat
  title : String
  description : String
  is_complete : Bool
  priority : Option String
  category : Option String
  due_date : Option DateTime
  recurrence_rule : Option String
deriving DecidableEq, Repr

/-- The two error kinds of the service.  The Python code raises
`ValueError` everywhere; the raise sites in `update_task`,
`delete_task` and `mark_complete` that fire on an unknown id use the
distinguished message prefix `Task not found`, embedded here as the
`notFound` constructor, every other raise site as `validation`. -/
inductive TMErr where
  | validation (msg : String)
  | notFound (taskId : Nat)
deriving DecidableEq, Repr

/-- The `TaskManager` state: the `tasks` dict (insertion-ordered,
keyed by `Task.id`) and the `next_id` counter. -/
structure TaskManager where
  tasks : List Task
  next_id : Nat
deriving DecidableEq, Repr

deriving instance DecidableEq for Except

/-- `TaskManager.__init__`. -/
def TaskManager.init : TaskManager :=
  { tasks := [], next_id := INITIAL_TASK_ID }

/-- Dict lookup `self.tasks[task_id]` / `task_id in self.tasks`. -/
def TaskManager.find? (tm : TaskManager) (task_id : Nat) : Option Task :=
  tm.tasks.find? (fun t => t.id == task_id)

/-- In-place mutation of the stored task object: the dict entry whose
key is `t.id` now holds the new record. -/
def TaskManager.setTask (tm : TaskManager) (t : Task) : TaskManager :=
  { tm with tasks := tm.tasks.map (fun u => if u.id = t.id then t else u) }

/-! ## Validators (module-level functions of `task_manager.py`) -/

/-- `validate_priority`. -/
def validate_priority (priority : Option String) : Except TMErr Unit :=
  match priority with
  | none => Except.ok ()
  | some p =>
    if VALID_PRIORITIES.contains p then Except.ok ()
    else Except.error (TMErr.validation "Priority must be one of low, medium, high")

/-- `validate_category`. -/
def validate_category (category : Option String) : Except TMErr Unit :=
  match category with
  | none => Except.ok ()
  | some c =>
    if strip c = "" then
      Except.error (TMErr.validation "Category cannot be empty or whitespace")
    else if c.length > MAX_CATEGORY_LENGTH then
      Except.error (TMErr.validation "Category exceeds maximum length of 50 characters")
    else Except.ok ()

/-- `validate_due_date`: compares calendar dates only, today allowed. -/
def validate_due_date (today : Date) (due_date : Option DateTime) :
    Except TMErr Unit :=
  match due_date with
  | none => Except.ok ()
  | some dd =>
    if dd.date.beforeB today then
      Except.error (TMErr.validation "Due date must be in the future")
    else Except.ok ()

/-- `validate_recurrence_rule`. -/
def validate_recurrence_rule (recurrence_rule : Option String) :
    Except TMErr Unit :=
  match recurrence_rule with
  | none => Except.ok ()
  | some r =>
    if VALID_RECURRENCE_RULES.contains r then Except.ok ()
    else Except.error (TMErr.validation "Recurrence rule must be one of daily, weekly, monthly")

/-! ## Operations -/

/-- `TaskManager._calculate_next_due_date`.  `timedelta` day addition
is `Date.addDays`; the monthly branch mirrors the `monthrange` clamp
and the `datetime.replace` call (time of day is preserved throughout). -/
def calculate_next_due_date (current_due_date : DateTime)
    (recurrence_rule : String) : DateTime :=
  if recurrence_rule = "daily" then
    { current_due_date with date := current_due_date.date.addDays 1 }
  else if recurrence_rule = "weekly" then
    { current_due_date with date := current_due_date.date.addDays 7 }
  else if recurrence_rule = "monthly" then
    let year := current_due_date.date.year
    let month := current_due_date.date.month
    let day := current_due_date.date.day
    let next_year := if month = 12 then year + 1 else year
    let next_month := if month = 12 then 1 else month + 1
    let last_day_of_next_month := daysInMonth next_year next_month
    let next_day := min day last_day_of_next_month
    { current_due_date with
        date := { year := next_year, month := next_month, day := next_day } }
  else
    current_due_date

/-- The `if category is None: category = DEFAULT_CATEGORY` defaulting
step of `add_task`. -/
def defaultedCategory : Option String → Option String
  | none => some DEFAULT_CATEGORY
  | some c => some c

/-- `TaskManager.add_task`: validates every field, defaults the
category, stores the task under `next_id` and increments the counter. -/
def add_task (tm : TaskManager) (today : Date) (title : String)
    (description : String) (priority : Option String)
    (category : Option String) (due_date : Option DateTime)
    (recurrence_rule : Option String) : Except TMErr (TaskManager × Task) :=
  let title := strip title
  if title = "" then
    Except.error (TMErr.validation "Title cannot be empty")
  else if title.length > MAX_TITLE_LENGTH then
    Except.error (TMErr.validation "Title exceeds maximum length of 200 characters")
  else if description.length > MAX_DESCRIPTION_LENGTH then
    Except.error (TMErr.validation "Description exceeds maximum length of 1000 characters")
  else match validate_priority priority with
  | Except.error e => Except.error e
  | Except.ok _ =>
    match validate_category category with
    | Except.error e => Except.error e
    | Except.ok _ =>
      let category := defaultedCategory category
      match validate_due_date today due_date with
      | Except.error e => Except.error e
      | Except.ok _ =>
        match validate_recurrence_rule recurrence_rule with
        | Except.error e => Except.error e
        | Except.ok _ =>
          let task : Task :=
            { id := tm.next_id, title := title, description := description,
              is_complete := false, priority := priority,
              category := category, due_date := due_date,
              recurrence_rule := recurrence_rule }
          Except.ok
            ({ tasks := tm.tasks ++ [task], next_id := tm.next_id + 1 }, task)

/-- Comparison `Task.id ≤ Task.id` used by every id-ordered view. -/
def idLe (a b : Task) : Bool := decide (a.id ≤ b.id)

/-- Stable insertion step: `x` goes after every element `y` with
`le y x`, so elements comparing equal keep their relative order. -/
def insertLe {α : Type} (le : α → α → Bool) (x : α) : List α → List α
  | [] => [x]
  | y :: ys => if le y x then y :: insertLe le x ys else x :: y :: ys

/-- Stable sort, the semantics of Python's `sorted`. -/
def sortByLe {α : Type} (le : α → α → Bool) (l : List α) : List α :=
  l.foldl (fun acc x => insertLe le x acc) []

/-- `TaskManager.get_all_tasks`: all tasks sorted ascending by id. -/
def get_all_tasks (tm : TaskManager) : List Task :=
  sortByLe idLe tm.tasks

/-- `TaskManager.mark_complete`.  The completion flag is assigned
before the recurrence branch runs, so a failing spawn leaves the flag
already written; the spawn condition is Python truthiness of
`task.recurrence_rule` (a non-empty string) and `task.due_date`. -/
def mark_complete (tm : TaskManager) (today : Date) (task_id : Nat)
    (is_complete : Bool) : TaskManager × Except TMErr Task :=
  match tm.find? task_id with
  | none => (tm, Except.error (TMErr.notFound task_id))
  | some task0 =>
    let task := { task0 with is_complete := is_complete }
    let tm1 := tm.setTask task
    match is_complete, task.recurrence_rule, task.due_date with
    | true, some rule, some dd =>
      if rule = "" then (tm1, Except.ok task)
      else
        let next_due_date := calculate_next_due_date dd rule
        match add_task tm1 today task.title task.description task.priority
            task.category (some next_due_date) task.recurrence_rule with
        | Except.error e => (tm1, Except.error e)
        | Except.ok (tm2, _) => (tm2, Except.ok task)
    | _, _, _ => (tm1, Except.ok task)

/-- Final stage of `update_task`: the `due_date` field.  Each stage
returns the store as mutated so far together with the result, because
the Python method assigns each validated field to the stored task
object before validating the next one. -/
def upd_due (tm : TaskManager) (today : Date) (task : Task)
    (due_date : Option DateTime) : TaskManager × Except TMErr Task :=
  match due_date with
  | none => (tm, Except.ok task)
  | some dd =>
    match validate_due_date today (some dd) with
    | Except.error e => (tm, Except.error e)
    | Except.ok _ =>
      let task := { task with due_date := some dd }
      (tm.setTask task, Except.ok task)

/-- `update_task` stage for the `category` field. -/
def upd_category (tm : TaskManager) (today : Date) (task : Task)
    (category : Option String) (due_date : Option DateTime) :
    TaskManager × Except TMErr Task :=
  match category with
  | none => upd_due tm today task due_date
  | some c =>
    match validate_category (some c) with
    | Except.error e => (tm, Except.error e)
    | Except.ok _ =>
      let task := { task with category := some c }
      upd_due (tm.setTask task) today task due_date

/-- `update_task` stage for the `priority` field. -/
def upd_priority (tm : TaskManager) (today : Date) (task : Task)
    (priority category : Option String) (due_date : Option DateTime) :
    TaskManager × Except TMErr Task :=
  match priority with
  | none => upd_category tm today task category due_date
  | some p =>
    match validate_priority (some p) with
    | Except.error e => (tm, Except.error e)
    | Except.ok _ =>
      let task := { task with priority := some p }
      upd_category (tm.setTask task) today task category due_date

/-- `update_task` stage for the `description` field. -/
def upd_description (tm : TaskManager) (today : Date) (task : Task)
    (description : Option String) (priority category : Option String)
    (due_date : Option DateTime) : TaskManager × Except TMErr Task :=
  match description with
  | none => upd_priority tm today task priority category due_date
  | some d =>
    if d.length > MAX_DESCRIPTION_LENGTH then
      (tm, Except.error (TMErr.validation "Description exceeds maximum length of 1000 characters"))
    else
      let task := { task with description := d }
      upd_priority (tm.setTask task) today task priority category due_date

/-- `update_task` stage for the `title` field. -/
def upd_title (tm : TaskManager) (today : Date) (task : Task)
    (title description priority category : Option String)
    (due_date : Option DateTime) : TaskManager × Except TMErr Task :=
  match title with
  | none => upd_description tm today task description priority category due_date
  | some t0 =>
    let t := strip t0
    if t = "" then
      (tm, Except.error (TMErr.validation "Title cannot be empty"))
    else if t.length > MAX_TITLE_LENGTH then
      (tm, Except.error (TMErr.validation "Title exceeds maximum length of 200 characters"))
    else
      let task := { task with title := t }
      upd_description (tm.setTask task) today task description priority category due_date

/-- `TaskManager.update_task`: id check, then the must-supply-a-field
check, then the five field stages in source order title, description,
priority, category, due_date. -/
def update_task (tm : TaskManager) (today : Date) (task_id : Nat)
    (title description priority category : Option String)
    (due_date : Option DateTime) : TaskManager × Except TMErr Task :=
  match tm.find? task_id with
  | none => (tm, Except.error (TMErr.notFound task_id))
  | some task =>
    if title = none ∧ description = none ∧ priority = none ∧
        category = none ∧ due_date = none then
      (tm, Except.error (TMErr.validation "Must provide at least one field to update"))
    else
      upd_title tm today task title description priority category due_date

/-- `TaskManager.delete_task`. -/
def delete_task (tm : TaskManager) (task_id : Nat) :
    TaskManager × Except TMErr Unit :=
  match tm.find? task_id with
  | none => (tm, Except.error (TMErr.notFound task_id))
  | some _ =>
    ({ tm with tasks := tm.tasks.filter (fun t => !(t.id == task_id)) },
      Except.ok ())

/-- `TaskManager.search_tasks`: case-insensitive keyword match against
title or description, over the id-sorted view. -/
def search_tasks (tm : TaskManager) (keyword : String) : List Task :=
  let keyword_lower := strLower keyword
  (get_all_tasks tm).filter (fun task =>
    strContainsSub (strLower task.title) keyword_lower ||
    strContainsSub (strLower task.description) keyword_lower)

/-- `TaskManager.filter_tasks`: AND of the supplied criteria. -/
def filter_tasks (tm : TaskManager) (priority category : Option String)
    (is_complete : Option Bool) : List Task :=
  (get_all_tasks tm).filter (fun task =>
    (match priority with | none => true | some p => task.priority == some p) &&
    (match category with | none => true | some c => task.category == some c) &&
    (match is_complete with | none => true | some b => task.is_complete == b))

/-- `priority_order.get(task.priority, 3)`: high 0, medium 1, low 2,
anything else (including `None`) 3. -/
def priority_order (p : Option String) : Nat :=
  match p with
  | some "high" => 0
  | some "medium" => 1
  | some "low" => 2
  | _ => 3

/-- Tuple key `(priority_order, id)` comparison. -/
def priorityKeyLe (a b : Task) : Bool :=
  if priority_order a.priority < priority_order b.priority then true
  else if priority_order b.priority < priority_order a.priority then false
  else decide (a.id ≤ b.id)

/-- Tuple key `(title.lower(), id)` comparison. -/
def titleKeyLe (a b : Task) : Bool :=
  let ta := (strLower a.title).toList
  let tb := (strLower b.title).toList
  if charListLt ta tb then true
  else if charListLt tb ta then false
  else decide (a.id ≤ b.id)

/-- Chronological comparison of `datetime` values (date, then time). -/
def dtLe (a b : DateTime) : Bool :=
  if a.date.beforeB b.date then true
  else if b.date.beforeB a.date then false
  else decide (a.time ≤ b.time)

/-- Tuple key `(due_date or datetime.max, id)` comparison: a missing
due date sorts strictly after every present one. -/
def dueKeyLe (a b : Task) : Bool :=
  match a.due_date, b.due_date with
  | none, none => decide (a.id ≤ b.id)
  | none, some _ => false
  | some _, none => true
  | some x, some y => if x = y then decide (a.id ≤ b.id) else dtLe x y

/-- `TaskManager.sort_tasks`: the three recognised keys sort by their
tuple key; every other string falls through to the id sort. -/
def sort_tasks (tm : TaskManager) (sort_by : String) : List Task :=
  let tasks := get_all_tasks tm
  if sort_by = "priority" then sortByLe priorityKeyLe tasks
  else if sort_by = "title" then sortByLe titleKeyLe tasks
  else if sort_by = "due_date" then sortByLe dueKeyLe tasks
  else sortByLe idLe tasks

/-- `TaskManager.get_overdue_tasks`: incomplete tasks whose due date's
calendar date is strictly before today, in the id order produced by
`get_all_tasks`. -/
def get_overdue_tasks (tm : TaskManager) (today : Date) : List Task :=
  (get_all_tasks tm).filter (fun task =>
    !task.is_complete &&
    (match task.due_date with
     | none => false
     | some dd => dd.date.beforeB today))

/-! ## Lemmas about the stable sort -/

/-! ## Lemmas about the store primitives -/

/-! ## Characterisations of the operations -/

/-- The field constraints every task stored by a successful creation or
update satisfies; the spawn path of `mark_complete` re-validates them. -/
def Task.storedOk (t : Task) : Prop :=
  strip t.title = t.title ∧ t.title ≠ "" ∧
  t.title.length ≤ MAX_TITLE_LENGTH ∧
  t.description.length ≤ MAX_DESCRIPTION_LENGTH ∧
  validate_priority t.priority = Except.ok () ∧
  validate_category t.category = Except.ok ()

/-! ## Declarative description of the update stages

`applyX` states what accepting field `X` does to the task record, and
`xFails` states when the supplied field value violates its rule; both
follow the spec wording of §4.1 and are compared against the embedded
`upd_*` stages. -/

def applyTitle (task : Task) : Option String → Task
  | none => task
  | some t0 => { task with title := strip t0 }

def applyDescription (task : Task) : Option String → Task
  | none => task
  | some d => { task with description := d }

def applyPriority (task : Task) : Option String → Task
  | none => task
  | some p => { task with priority := some p }

def applyCategory (task : Task) : Option String → Task
  | none => task
  | some c => { task with category := some c }

def applyDueDate (task : Task) : Option DateTime → Task
  | none => task
  | some dd => { task with due_date := some dd }

def titleFails : Option String → Prop
  | none => False
  | some t0 => strip t0 = "" ∨ (strip t0).length > MAX_TITLE_LENGTH

def descriptionFails : Option String → Prop
  | none => False
  | some d => d.length > MAX_DESCRIPTION_LENGTH

def priorityFails : Option String → Prop
  | none => False
  | some p => validate_priority (some p) ≠ Except.ok ()

def categoryFails : Option String → Prop
  | none => False
  | some c => validate_category (some c) ≠ Except.ok ()

def dueDateFails (today : Date) : Option DateTime → Prop
  | none => False
  | some dd => validate_due_date today (some dd) ≠ Except.ok ()

/-- Store after optionally writing the task record back (a stage that
receives `none` for its field leaves the store untouched). -/
def setIfSome {β : Type} (tm : TaskManager) (t : Task) : Option β → TaskManager
  | none => tm
  | some _ => tm.setTask t

/-- The id, completion flag and recurrence rule of every stored record,
in store order. -/
def frameSig (t : Task) : Nat × Bool × Option String :=
  (t.id, t.is_complete, t.recurrence_rule)


/-- One successful mutating operation, as the id-assignment claims
consider them: a creation, a deletion, or a completion toggle (whose
recurrence spawn goes through the creation path).  The clock value may
differ from step to step. -/
inductive Step : TaskManager → TaskManager → Prop where
  | create (tm : TaskManager) (today : Date) (title description : String)
      (priority category : Option String) (due_date : Option DateTime)
      (recurrence_rule : Option String) (tm2 : TaskManager) (t : Task) :
      add_task tm today title description priority category due_date
        recurrence_rule = Except.ok (tm2, t) → Step tm tm2
  | del (tm : TaskManager) (i : Nat) (tm2 : TaskManager) :
      delete_task tm i = (tm2, Except.ok ()) → Step tm tm2
  | complete (tm : TaskManager) (today : Date) (i : Nat) (b : Bool)
      (tm2 : TaskManager) (t : Task) :
      mark_complete tm today i b = (tm2, Except.ok t) → Step tm tm2

/-- Stores reachable from a fresh `TaskManager()` by successful
operations. -/
inductive Reachable : TaskManager → Prop where
  | init : Reachable TaskManager.init
  | step (tm tm2 : TaskManager) : Reachable tm → Step tm tm2 → Reachable tm2

/-- The store invariant: every stored id is at least 1 and below the
counter, ids are pairwise distinct, and the counter is at least 1. -/
def TaskManager.wf (tm : TaskManager) : Prop :=
  (∀ t ∈ tm.tasks, 1 ≤ t.id ∧ t.id < tm.next_id) ∧
  (tm.tasks.map Task.id).Nodup ∧ 1 ≤ tm.next_id

/-! ## Concrete data used by the closed instances -/

def quickDT (y m d : Nat) : DateTime := { date := { year := y, month := m, day := d }, time := 0 }

def todayW : Date := { year := 2026, month := 1, day := 10 }

def taskPlain : Task :=
  { id := 1, title := "Old", description := "", is_complete := false,
    priority := none, category := some "General", due_date := none,
    recurrence_rule := none }

def taskRecPast : Task :=
  { id := 1, title := "Rec", description := "", is_complete := false,
    priority := none, category := some "General",
    due_date := some (quickDT 2026 1 8), recurrence_rule := some "daily" }

def taskRecToday : Task :=
  { id := 1, title := "Rec", description := "", is_complete := false,
    priority := none, category := some "General",
    due_date := some (quickDT 2026 1 10), recurrence_rule := some "daily" }

def taskOverdueA : Task :=
  { id := 1, title := "A", description := "", is_complete := false,
    priority := none, category := some "General",
    due_date := some (quickDT 2026 1 5), recurrence_rule := none }

def taskOverdueB : Task :=
  { id := 2, title := "B", description := "", is_complete := false,
    priority := none, category := some "General",
    due_date := some (quickDT 2026 1 3), recurrence_rule := none }

def taskOverdueC : Task :=
  { id := 3, title := "C", description := "", is_complete := true,
    priority := none, category := some "General",
    due_date := some (quickDT 2026 1 3), recurrence_rule := none }

def tmPlain : TaskManager := { tasks := [taskPlain], next_id := 2 }

def tmRecPast : TaskManager := { tasks := [taskRecPast], next_id := 2 }

def tmRecToday : TaskManager := { tasks := [taskRecToday], next_id := 2 }

def tmOverdue : TaskManager :=
  { tasks := [taskOverdueA, taskOverdueB, taskOverdueC], next_id := 4 }

/-- Invariant carried along the update chain relative to the record
initially stored under `task_id`: the frame fields of every stored
record are unchanged, ids stay unique, and the id still resolves to a
record with the original frame fields. -/
def FrameInv (tm0 : TaskManager) (task_id : Nat) (task : Task)
    (s : TaskManager) : Prop :=
  s.tasks.map frameSig = tm0.tasks.map frameSig ∧
  (s.tasks.map Task.id).Nodup ∧
  ∃ u, s.find? task_id = some u ∧ u.id = task.id ∧
    u.is_complete = task.is_complete ∧
    u.recurrence_rule = task.recurrence_rule

/-! ## Lemmas -/

lemma one_le_daysInMonth (y m : Nat) : 1 ≤ daysInMonth y m := by
  unfold daysInMonth
  split <;> first | omega | (split <;> omega)

lemma daysInMonth_le_31 (y m : Nat) : daysInMonth y m ≤ 31 := by
  unfold daysInMonth
  split <;> first | omega | (split <;> omega)

lemma daysBeforeMonth_succ (y m : Nat) (hm : 1 ≤ m) :
    daysBeforeMonth y (m + 1) = daysBeforeMonth y m + daysInMonth y m := by
  match m, hm with
  | Nat.succ k, _ => rfl

lemma daysBeforeMonth_one (y : Nat) : daysBeforeMonth y 1 = 0 := rfl

lemma daysBeforeMonth_12 (y : Nat) :
    daysBeforeMonth y 12 = if isLeapYear y then 335 else 334 := by
  cases h : isLeapYear y <;>
    norm_num [daysBeforeMonth, daysInMonth, h]

lemma isLeapYear_iff (y : Nat) :
    isLeapYear y = true ↔ (4 ∣ y ∧ (¬ (100 ∣ y) ∨ 400 ∣ y)) := by
  simp only [isLeapYear, Bool.and_eq_true, Bool.or_eq_true, beq_iff_eq,
    bne_iff_ne, ne_eq]
  omega

lemma preLeaps_succ (y : Nat) (hy : 1 ≤ y) :
    preLeaps (y + 1) = preLeaps y + (if isLeapYear y then 1 else 0) := by
  obtain ⟨z, rfl⟩ : ∃ z, y = z + 1 := ⟨y - 1, by omega⟩
  have hz100 : z / 100 ≤ z / 4 := Nat.div_le_div_left (by omega) (by omega)
  have hz400 : z / 400 ≤ z / 100 := Nat.div_le_div_left (by omega) (by omega)
  have hiff := isLeapYear_iff (z + 1)
  unfold preLeaps
  simp only [Nat.add_sub_cancel]
  rw [Nat.succ_div, Nat.succ_div, Nat.succ_div]
  split_ifs <;> simp only [hiff] at * <;> omega

lemma toOrd_next (d : Date) (hd : d.validB = true) :
    toOrd d.next = toOrd d + 1 := by
  obtain ⟨y, m, day⟩ := d
  simp only [Date.validB, Bool.and_eq_true, decide_eq_true_eq] at hd
  obtain ⟨⟨⟨⟨hy, hm1⟩, hm12⟩, hd1⟩, hdm⟩ := hd
  unfold Date.next
  split
  · next hlt =>
    dsimp only at hlt
    simp only [toOrd]
    omega
  · next hlt =>
    dsimp only at hlt
    split
    · next hmlt =>
      dsimp only at hmlt
      have hday : day = daysInMonth y m := by omega
      simp only [toOrd]
      rw [daysBeforeMonth_succ y m hm1]
      omega
    · next hmlt =>
      dsimp only at hmlt
      have hm : m = 12 := by omega
      subst hm
      have hdim : daysInMonth y 12 = 31 := rfl
      have hday : day = 31 := by omega
      subst hday
      simp only [toOrd]
      rw [preLeaps_succ y hy, daysBeforeMonth_12 y, daysBeforeMonth_one]
      split <;> omega

lemma validB_next (d : Date) (hd : d.validB = true) :
    d.next.validB = true := by
  obtain ⟨y, m, day⟩ := d
  simp only [Date.validB, Bool.and_eq_true, decide_eq_true_eq] at hd
  obtain ⟨⟨⟨⟨hy, hm1⟩, hm12⟩, hd1⟩, hdm⟩ := hd
  unfold Date.next
  split
  · next hlt =>
    dsimp only at hlt
    simp only [Date.validB, Bool.and_eq_true, decide_eq_true_eq]
    omega
  · next hlt =>
    dsimp only at hlt
    split
    · next hmlt =>
      dsimp only at hmlt
      simp only [Date.validB, Bool.and_eq_true, decide_eq_true_eq]
      have := one_le_daysInMonth y (m + 1)
      omega
    · next hmlt =>
      dsimp only at hmlt
      simp only [Date.validB, Bool.and_eq_true, decide_eq_true_eq]
      have h31 : daysInMonth (y + 1) 1 = 31 := rfl
      omega

lemma toOrd_addDays (d : Date) (n : Nat) (hd : d.validB = true) :
    toOrd (d.addDays n) = toOrd d + n ∧ (d.addDays n).validB = true := by
  induction n with
  | zero => exact ⟨rfl, hd⟩
  | succ k ih =>
    obtain ⟨h1, h2⟩ := ih
    refine ⟨?_, validB_next _ h2⟩
    show toOrd (d.addDays k).next = _
    rw [toOrd_next _ h2, h1]
    omega

lemma insertLe_perm {α : Type} (le : α → α → Bool) (x : α) (l : List α) :
    (insertLe le x l).Perm (x :: l) := by
  induction l with
  | nil => exact List.Perm.refl _
  | cons y ys ih =>
    unfold insertLe
    split
    · exact (ih.cons y).trans (List.Perm.swap x y ys)
    · exact List.Perm.refl _

lemma foldl_insertLe_perm {α : Type} (le : α → α → Bool) (l : List α) :
    ∀ acc : List α,
      (l.foldl (fun acc x => insertLe le x acc) acc).Perm (acc ++ l) := by
  induction l with
  | nil => intro acc; simp
  | cons x xs ih =>
    intro acc
    simp only [List.foldl_cons]
    refine (ih (insertLe le x acc)).trans ?_
    refine ((insertLe_perm le x acc).append_right xs).trans ?_
    exact (@List.perm_middle _ x acc xs).symm

lemma sortByLe_perm {α : Type} (le : α → α → Bool) (l : List α) :
    (sortByLe le l).Perm l := by
  simpa using foldl_insertLe_perm le l []

lemma insertLe_pairwise {α : Type} (le : α → α → Bool)
    (htot : ∀ a b, le a b = true ∨ le b a = true)
    (htrans : ∀ a b c, le a b = true → le b c = true → le a c = true)
    (x : α) (l : List α) (hl : l.Pairwise (fun a b => le a b = true)) :
    (insertLe le x l).Pairwise (fun a b => le a b = true) := by
  induction l with
  | nil => simp [insertLe]
  | cons y ys ih =>
    rw [List.pairwise_cons] at hl
    obtain ⟨hy, hys⟩ := hl
    unfold insertLe
    split
    · next hle =>
      rw [List.pairwise_cons]
      refine ⟨?_, ih hys⟩
      intro b hb
      have hb2 : b ∈ x :: ys := (insertLe_perm le x ys).mem_iff.mp hb
      rcases List.mem_cons.mp hb2 with rfl | hmem
      · exact hle
      · exact hy b hmem
    · next hle =>
      have hxy : le x y = true := by
        rcases htot x y with h | h
        · exact h
        · exact absurd h hle
      rw [List.pairwise_cons]
      refine ⟨?_, List.pairwise_cons.mpr ⟨hy, hys⟩⟩
      intro b hb
      rcases List.mem_cons.mp hb with rfl | hmem
      · exact hxy
      · exact htrans x y b hxy (hy b hmem)

lemma foldl_insertLe_pairwise {α : Type} (le : α → α → Bool)
    (htot : ∀ a b, le a b = true ∨ le b a = true)
    (htrans : ∀ a b c, le a b = true → le b c = true → le a c = true)
    (l : List α) :
    ∀ acc : List α, acc.Pairwise (fun a b => le a b = true) →
      (l.foldl (fun acc x => insertLe le x acc) acc).Pairwise
        (fun a b => le a b = true) := by
  induction l with
  | nil => intro acc hacc; simpa using hacc
  | cons x xs ih =>
    intro acc hacc
    simp only [List.foldl_cons]
    exact ih _ (insertLe_pairwise le htot htrans x acc hacc)

lemma sortByLe_pairwise {α : Type} (le : α → α → Bool)
    (htot : ∀ a b, le a b = true ∨ le b a = true)
    (htrans : ∀ a b c, le a b = true → le b c = true → le a c = true)
    (l : List α) :
    (sortByLe le l).Pairwise (fun a b => le a b = true) :=
  foldl_insertLe_pairwise le htot htrans l [] (List.Pairwise.nil)

lemma idLe_total (a b : Task) : idLe a b = true ∨ idLe b a = true := by
  simp only [idLe, decide_eq_true_eq]
  omega

lemma idLe_trans (a b c : Task) (h1 : idLe a b = true) (h2 : idLe b c = true) :
    idLe a c = true := by
  simp only [idLe, decide_eq_true_eq] at *
  omega

lemma get_all_tasks_perm (tm : TaskManager) :
    (get_all_tasks tm).Perm tm.tasks :=
  sortByLe_perm idLe tm.tasks

lemma get_all_tasks_sorted (tm : TaskManager) :
    (get_all_tasks tm).Pairwise (fun a b => a.id ≤ b.id) := by
  have h := sortByLe_pairwise idLe idLe_total idLe_trans tm.tasks
  exact h.imp (fun hab => by simpa [idLe] using hab)

lemma setTask_map_id (tm : TaskManager) (t : Task) :
    (tm.setTask t).tasks.map Task.id = tm.tasks.map Task.id := by
  unfold TaskManager.setTask
  simp only [List.map_map]
  refine List.map_congr_left ?_
  intro u _
  simp only [Function.comp_apply]
  split
  · next h => exact h.symm
  · rfl

lemma setTask_next_id (tm : TaskManager) (t : Task) :
    (tm.setTask t).next_id = tm.next_id := rfl

lemma find?_map_set (l : List Task) (i : Nat) (u t : Task)
    (hf : l.find? (fun a => a.id == i) = some u) (hid : t.id = u.id) :
    (l.map (fun a => if a.id = t.id then t else a)).find?
      (fun a => a.id == i) = some t := by
  have hui : u.id = i := by
    have := List.find?_some hf
    simpa using this
  induction l with
  | nil => simp at hf
  | cons a as ih =>
    by_cases h : a.id = i
    · rw [List.find?_cons_of_pos _ (by simpa using h)] at hf
      have hau : a = u := by injection hf
      subst hau
      simp only [List.map_cons]
      rw [if_pos (by omega)]
      exact List.find?_cons_of_pos _ (by simpa using hid.trans hui)
    · rw [List.find?_cons_of_neg _ (by simpa using h)] at hf
      simp only [List.map_cons]
      have hat : ¬ a.id = t.id := by omega
      rw [if_neg hat]
      rw [List.find?_cons_of_neg _ (by simpa using h)]
      exact ih hf

lemma find?_setTask (tm : TaskManager) (i : Nat) (u t : Task)
    (hf : tm.find? i = some u) (hid : t.id = u.id) :
    (tm.setTask t).find? i = some t :=
  find?_map_set tm.tasks i u t hf hid

lemma setTask_setTask (tm : TaskManager) (a b : Task) (h : a.id = b.id) :
    (tm.setTask a).setTask b = tm.setTask b := by
  unfold TaskManager.setTask
  simp only [List.map_map]
  congr 1
  refine List.map_congr_left ?_
  intro u _
  simp only [Function.comp_apply]
  by_cases hu : u.id = a.id
  · rw [if_pos hu, if_pos (h ▸ rfl), if_pos (by omega)]
  · rw [if_neg hu, if_neg (by omega)]

lemma find?_append_left (l1 l2 : List Task) (p : Task → Bool) (u : Task)
    (hf : l1.find? p = some u) : (l1 ++ l2).find? p = some u := by
  rw [List.find?_append, hf]
  rfl

lemma add_task_of_valid_ok (tm : TaskManager) (today : Date)
    (title description : String) (priority category : Option String)
    (due_date : Option DateTime) (recurrence_rule : Option String)
    (ht0 : strip title ≠ "")
    (ht2 : (strip title).length ≤ MAX_TITLE_LENGTH)
    (hd : description.length ≤ MAX_DESCRIPTION_LENGTH)
    (hp : validate_priority priority = Except.ok ())
    (hc : validate_category category = Except.ok ())
    (hdd : validate_due_date today due_date = Except.ok ())
    (hr : validate_recurrence_rule recurrence_rule = Except.ok ()) :
    add_task tm today title description priority category due_date
        recurrence_rule =
      Except.ok
        ({ tasks := tm.tasks ++
            [{ id := tm.next_id, title := strip title,
               description := description, is_complete := false,
               priority := priority, category := defaultedCategory category,
               due_date := due_date, recurrence_rule := recurrence_rule }],
           next_id := tm.next_id + 1 },
         { id := tm.next_id, title := strip title,
           description := description, is_complete := false,
           priority := priority, category := defaultedCategory category,
           due_date := due_date, recurrence_rule := recurrence_rule }) := by
  have h2 : ¬ (strip title).length > MAX_TITLE_LENGTH := by omega
  have h3 : ¬ description.length > MAX_DESCRIPTION_LENGTH := by omega
  simp only [add_task, if_neg ht0, if_neg h2, if_neg h3, hp, hc, hdd, hr]

lemma add_task_of_valid_err (tm : TaskManager) (today : Date)
    (title description : String) (priority category : Option String)
    (due_date : Option DateTime) (recurrence_rule : Option String)
    (e : TMErr)
    (ht0 : strip title ≠ "")
    (ht2 : (strip title).length ≤ MAX_TITLE_LENGTH)
    (hd : description.length ≤ MAX_DESCRIPTION_LENGTH)
    (hp : validate_priority priority = Except.ok ())
    (hc : validate_category category = Except.ok ())
    (hdd : validate_due_date today due_date = Except.error e) :
    add_task tm today title description priority category due_date
        recurrence_rule = Except.error e := by
  have h2 : ¬ (strip title).length > MAX_TITLE_LENGTH := by omega
  have h3 : ¬ description.length > MAX_DESCRIPTION_LENGTH := by omega
  simp only [add_task, if_neg ht0, if_neg h2, if_neg h3, hp, hc, hdd]

lemma mark_complete_not_found (tm : TaskManager) (today : Date) (i : Nat)
    (b : Bool) (h : tm.find? i = none) :
    mark_complete tm today i b = (tm, Except.error (TMErr.notFound i)) := by
  simp only [mark_complete, h]

lemma mark_complete_rule_none (tm : TaskManager) (today : Date) (i : Nat)
    (b : Bool) (task : Task) (hf : tm.find? i = some task)
    (hr : task.recurrence_rule = none) :
    mark_complete tm today i b =
      (tm.setTask { task with is_complete := b },
       Except.ok { task with is_complete := b }) := by
  simp only [mark_complete, hf]
  cases b <;> simp [hr]

lemma mark_complete_spawn (tm : TaskManager) (today : Date) (i : Nat)
    (task : Task) (r : String) (d : DateTime)
    (hf : tm.find? i = some task)
    (hr : task.recurrence_rule = some r) (hrne : r ≠ "")
    (hd : task.due_date = some d) :
    mark_complete tm today i true =
      (match add_task (tm.setTask { task with is_complete := true }) today
          task.title task.description task.priority task.category
          (some (calculate_next_due_date d r)) (some r) with
       | Except.error e =>
         (tm.setTask { task with is_complete := true }, Except.error e)
       | Except.ok (tm2, _) =>
         (tm2, Except.ok { task with is_complete := true })) := by
  simp only [mark_complete, hf, hr, hd]
  rw [if_neg hrne]

lemma delete_task_found (tm : TaskManager) (i : Nat) (task : Task)
    (hf : tm.find? i = some task) :
    delete_task tm i =
      ({ tm with tasks := tm.tasks.filter (fun t => !(t.id == i)) },
       Except.ok ()) := by
  simp only [delete_task, hf]

lemma delete_task_not_found (tm : TaskManager) (i : Nat)
    (hf : tm.find? i = none) :
    delete_task tm i = (tm, Except.error (TMErr.notFound i)) := by
  simp only [delete_task, hf]

lemma upd_due_fail (tm : TaskManager) (today : Date) (task : Task)
    (due_date : Option DateTime) (h : dueDateFails today due_date) :
    ∃ msg, upd_due tm today task due_date =
      (tm, Except.error (TMErr.validation msg)) := by
  cases due_date with
  | none => simp [dueDateFails] at h
  | some dd =>
    simp only [dueDateFails, validate_due_date] at h
    cases hb : dd.date.beforeB today with
    | true =>
      exact ⟨"Due date must be in the future",
        by simp [upd_due, validate_due_date, hb]⟩
    | false => exact absurd (by simp [hb]) h

lemma upd_due_pass (tm : TaskManager) (today : Date) (task : Task)
    (due_date : Option DateTime) (h : ¬ dueDateFails today due_date) :
    upd_due tm today task due_date =
      (setIfSome tm (applyDueDate task due_date) due_date,
       Except.ok (applyDueDate task due_date)) := by
  cases due_date with
  | none => simp [upd_due, setIfSome, applyDueDate]
  | some dd =>
    simp only [dueDateFails, validate_due_date, not_not] at h
    cases hb : dd.date.beforeB today with
    | true =>
      rw [if_pos hb] at h
      exact absurd h (by simp)
    | false =>
      simp [upd_due, validate_due_date, hb, setIfSome, applyDueDate]

lemma upd_category_fail (tm : TaskManager) (today : Date) (task : Task)
    (category : Option String) (due_date : Option DateTime)
    (h : categoryFails category) :
    ∃ msg, upd_category tm today task category due_date =
      (tm, Except.error (TMErr.validation msg)) := by
  cases category with
  | none => simp [categoryFails] at h
  | some c =>
    simp only [categoryFails, validate_category] at h
    by_cases h1 : strip c = ""
    · exact ⟨"Category cannot be empty or whitespace",
        by simp [upd_category, validate_category, h1]⟩
    · by_cases h2 : c.length > MAX_CATEGORY_LENGTH
      · exact ⟨"Category exceeds maximum length of 50 characters",
          by simp [upd_category, validate_category, h1, h2]⟩
      · exact absurd (by simp [h1, h2]) h

lemma upd_category_pass (tm : TaskManager) (today : Date) (task : Task)
    (category : Option String) (due_date : Option DateTime)
    (h : ¬ categoryFails category) :
    upd_category tm today task category due_date =
      upd_due (setIfSome tm (applyCategory task category) category) today
        (applyCategory task category) due_date := by
  cases category with
  | none => simp [upd_category, setIfSome, applyCategory]
  | some c =>
    simp only [categoryFails, validate_category, not_not] at h
    by_cases h1 : strip c = ""
    · rw [if_pos h1] at h
      exact absurd h (by simp)
    · by_cases h2 : c.length > MAX_CATEGORY_LENGTH
      · rw [if_neg h1, if_pos h2] at h
        exact absurd h (by simp)
      · simp [upd_category, validate_category, h1, h2, setIfSome,
          applyCategory]

lemma upd_priority_fail (tm : TaskManager) (today : Date) (task : Task)
    (priority category : Option String) (due_date : Option DateTime)
    (h : priorityFails priority) :
    ∃ msg, upd_priority tm today task priority category due_date =
      (tm, Except.error (TMErr.validation msg)) := by
  cases priority with
  | none => simp [priorityFails] at h
  | some p =>
    simp only [priorityFails] at h
    by_cases h1 : p ∈ VALID_PRIORITIES
    · exact absurd (by simp [validate_priority, h1]) h
    · exact ⟨"Priority must be one of low, medium, high",
        by simp [upd_priority, validate_priority, h1]⟩

lemma upd_priority_pass (tm : TaskManager) (today : Date) (task : Task)
    (priority category : Option String) (due_date : Option DateTime)
    (h : ¬ priorityFails priority) :
    upd_priority tm today task priority category due_date =
      upd_category (setIfSome tm (applyPriority task priority) priority)
        today (applyPriority task priority) category due_date := by
  cases priority with
  | none => simp [upd_priority, setIfSome, applyPriority]
  | some p =>
    simp only [priorityFails, not_not] at h
    by_cases h1 : p ∈ VALID_PRIORITIES
    · simp [upd_priority, validate_priority, h1, setIfSome, applyPriority]
    · exact absurd h (by simp [validate_priority, h1])

lemma upd_description_fail (tm : TaskManager) (today : Date) (task : Task)
    (description priority category : Option String)
    (due_date : Option DateTime) (h : descriptionFails description) :
    ∃ msg, upd_description tm today task description priority category
      due_date = (tm, Except.error (TMErr.validation msg)) := by
  cases description with
  | none => simp [descriptionFails] at h
  | some d =>
    simp only [descriptionFails] at h
    exact ⟨"Description exceeds maximum length of 1000 characters",
      by simp [upd_description, if_pos h]⟩

lemma upd_description_pass (tm : TaskManager) (today : Date) (task : Task)
    (description priority category : Option String)
    (due_date : Option DateTime) (h : ¬ descriptionFails description) :
    upd_description tm today task description priority category due_date =
      upd_priority (setIfSome tm (applyDescription task description)
          description) today (applyDescription task description) priority
        category due_date := by
  cases description with
  | none => simp [upd_description, setIfSome, applyDescription]
  | some d =>
    simp only [descriptionFails] at h
    simp [upd_description, if_neg h, setIfSome, applyDescription]

lemma upd_title_fail (tm : TaskManager) (today : Date) (task : Task)
    (title description priority category : Option String)
    (due_date : Option DateTime) (h : titleFails title) :
    ∃ msg, upd_title tm today task title description priority category
      due_date = (tm, Except.error (TMErr.validation msg)) := by
  cases title with
  | none => simp [titleFails] at h
  | some t0 =>
    simp only [titleFails] at h
    by_cases h1 : strip t0 = ""
    · exact ⟨"Title cannot be empty", by simp [upd_title, h1]⟩
    · rcases h with h | h
      · exact absurd h h1
      · exact ⟨"Title exceeds maximum length of 200 characters",
          by simp [upd_title, if_neg h1, if_pos h]⟩

lemma upd_title_pass (tm : TaskManager) (today : Date) (task : Task)
    (title description priority category : Option String)
    (due_date : Option DateTime) (h : ¬ titleFails title) :
    upd_title tm today task title description priority category due_date =
      upd_description (setIfSome tm (applyTitle task title) title) today
        (applyTitle task title) description priority category due_date := by
  cases title with
  | none => simp [upd_title, setIfSome, applyTitle]
  | some t0 =>
    simp only [titleFails, not_or] at h
    obtain ⟨h1, h2⟩ := h
    simp [upd_title, if_neg h1, if_neg h2, setIfSome, applyTitle]

/-- With distinct ids (a dict state), writing the found record back
unchanged is a no-op on the store. -/
lemma setTask_find_self (tm : TaskManager) (i : Nat) (task : Task)
    (hn : (tm.tasks.map Task.id).Nodup) (hf : tm.find? i = some task) :
    tm.setTask task = tm := by
  have hmem : task ∈ tm.tasks := List.mem_of_find?_eq_some hf
  unfold TaskManager.setTask
  have h2 : tm.tasks.map (fun u => if u.id = task.id then task else u) =
      tm.tasks.map id := by
    refine List.map_congr_left ?_
    intro u hu
    split
    · next h => exact (List.inj_on_of_nodup_map hn hu hmem h).symm
    · rfl
  rw [h2, List.map_id]

lemma setTask_map_frameSig (tm : TaskManager) (i : Nat) (task t : Task)
    (hn : (tm.tasks.map Task.id).Nodup) (hf : tm.find? i = some task)
    (hid : t.id = task.id) (hc : t.is_complete = task.is_complete)
    (hr : t.recurrence_rule = task.recurrence_rule) :
    (tm.setTask t).tasks.map frameSig = tm.tasks.map frameSig := by
  have hmem : task ∈ tm.tasks := List.mem_of_find?_eq_some hf
  unfold TaskManager.setTask
  simp only [List.map_map]
  refine List.map_congr_left ?_
  intro u hu
  simp only [Function.comp_apply]
  split
  · next h =>
    have hu2 : u = task :=
      List.inj_on_of_nodup_map hn hu hmem (by omega)
    subst hu2
    simp [frameSig, hid, hc, hr]
  · rfl

/-- Full case description of the five-stage update chain: either some
supplied field fails its rule — then the store reflects exactly the
supplied fields that come strictly before the first failing one — or
everything passes and all supplied fields are applied. -/
lemma upd_title_chars (tm : TaskManager) (today : Date) (task : Task)
    (title description priority category : Option String)
    (due_date : Option DateTime) :
    (titleFails title →
      ∃ msg, upd_title tm today task title description priority category
        due_date = (tm, Except.error (TMErr.validation msg))) ∧
    (¬ titleFails title → descriptionFails description →
      ∃ msg, upd_title tm today task title description priority category
        due_date =
        (setIfSome tm (applyTitle task title) title,
         Except.error (TMErr.validation msg))) ∧
    (¬ titleFails title → ¬ descriptionFails description →
      priorityFails priority →
      ∃ msg, upd_title tm today task title description priority category
        due_date =
        (setIfSome (setIfSome tm (applyTitle task title) title)
          (applyDescription (applyTitle task title) description)
          description,
         Except.error (TMErr.validation msg))) ∧
    (¬ titleFails title → ¬ descriptionFails description →
      ¬ priorityFails priority → categoryFails category →
      ∃ msg, upd_title tm today task title description priority category
        due_date =
        (setIfSome (setIfSome (setIfSome tm (applyTitle task title) title)
            (applyDescription (applyTitle task title) description)
            description)
          (applyPriority (applyDescription (applyTitle task title)
            description) priority) priority,
         Except.error (TMErr.validation msg))) ∧
    (¬ titleFails title → ¬ descriptionFails description →
      ¬ priorityFails priority → ¬ categoryFails category →
      dueDateFails today due_date →
      ∃ msg, upd_title tm today task title description priority category
        due_date =
        (setIfSome (setIfSome (setIfSome (setIfSome tm
              (applyTitle task title) title)
            (applyDescription (applyTitle task title) description)
            description)
          (applyPriority (applyDescription (applyTitle task title)
            description) priority) priority)
          (applyCategory (applyPriority (applyDescription
            (applyTitle task title) description) priority) category)
          category,
         Except.error (TMErr.validation msg))) ∧
    (¬ titleFails title → ¬ descriptionFails description →
      ¬ priorityFails priority → ¬ categoryFails category →
      ¬ dueDateFails today due_date →
      upd_title tm today task title description priority category
        due_date =
        (setIfSome (setIfSome (setIfSome (setIfSome (setIfSome tm
              (applyTitle task title) title)
            (applyDescription (applyTitle task title) description)
            description)
          (applyPriority (applyDescription (applyTitle task title)
            description) priority) priority)
          (applyCategory (applyPriority (applyDescription
            (applyTitle task title) description) priority) category)
          category)
          (applyDueDate (applyCategory (applyPriority (applyDescription
            (applyTitle task title) description) priority) category)
            due_date) due_date,
         Except.ok (applyDueDate (applyCategory (applyPriority
           (applyDescription (applyTitle task title) description)
           priority) category) due_date))) := by
  refine ⟨?_, ?_, ?_, ?_, ?_, ?_⟩
  · intro h1
    exact upd_title_fail tm today task title description priority category
      due_date h1
  · intro h1 h2
    rw [upd_title_pass tm today task title description priority category
      due_date h1]
    exact upd_description_fail _ today _ description priority category
      due_date h2
  · intro h1 h2 h3
    rw [upd_title_pass tm today task title description priority category
      due_date h1]
    rw [upd_description_pass _ today _ description priority category
      due_date h2]
    exact upd_priority_fail _ today _ priority category due_date h3
  · intro h1 h2 h3 h4
    rw [upd_title_pass tm today task title description priority category
      due_date h1]
    rw [upd_description_pass _ today _ description priority category
      due_date h2]
    rw [upd_priority_pass _ today _ priority category due_date h3]
    exact upd_category_fail _ today _ category due_date h4
  · intro h1 h2 h3 h4 h5
    rw [upd_title_pass tm today task title description priority category
      due_date h1]
    rw [upd_description_pass _ today _ description priority category
      due_date h2]
    rw [upd_priority_pass _ today _ priority category due_date h3]
    rw [upd_category_pass _ today _ category due_date h4]
    exact upd_due_fail _ today _ due_date h5
  · intro h1 h2 h3 h4 h5
    rw [upd_title_pass tm today task title description priority category
      due_date h1]
    rw [upd_description_pass _ today _ description priority category
      due_date h2]
    rw [upd_priority_pass _ today _ priority category due_date h3]
    rw [upd_category_pass _ today _ category due_date h4]
    exact upd_due_pass _ today _ due_date h5

lemma insertLe_append {α : Type} (le : α → α → Bool) (x : α) (acc : List α)
    (h : ∀ a ∈ acc, le a x = true) : insertLe le x acc = acc ++ [x] := by
  induction acc with
  | nil => rfl
  | cons a as ih =>
    unfold insertLe
    rw [if_pos (h a (List.mem_cons_self a as))]
    rw [ih (fun b hb => h b (List.mem_cons_of_mem a hb))]
    rfl

lemma foldl_insertLe_of_sorted {α : Type} (le : α → α → Bool) (l : List α) :
    ∀ acc : List α, acc.Pairwise (fun a b => le a b = true) →
      l.Pairwise (fun a b => le a b = true) →
      (∀ a ∈ acc, ∀ b ∈ l, le a b = true) →
      l.foldl (fun acc x => insertLe le x acc) acc = acc ++ l := by
  induction l with
  | nil => intro acc _ _ _; simp
  | cons x xs ih =>
    intro acc hacc hl hcross
    rw [List.pairwise_cons] at hl
    obtain ⟨hx, hxs⟩ := hl
    simp only [List.foldl_cons]
    rw [insertLe_append le x acc
      (fun a ha => hcross a ha x (List.mem_cons_self x xs))]
    have hacc2 : (acc ++ [x]).Pairwise (fun a b => le a b = true) := by
      rw [List.pairwise_append]
      refine ⟨hacc, List.pairwise_singleton _ x, ?_⟩
      intro a ha b hb
      have hbx : b = x := by simpa using hb
      subst hbx
      exact hcross a ha b (List.mem_cons_self b xs)
    have hcross2 : ∀ a ∈ acc ++ [x], ∀ b ∈ xs, le a b = true := by
      intro a ha b hb
      rcases List.mem_append.mp ha with ha2 | ha2
      · exact hcross a ha2 b (List.mem_cons_of_mem x hb)
      · have hax : a = x := by simpa using ha2
        subst hax
        exact hx b hb
    rw [ih (acc ++ [x]) hacc2 hxs hcross2]
    simp

lemma sortByLe_of_pairwise {α : Type} (le : α → α → Bool) (l : List α)
    (h : l.Pairwise (fun a b => le a b = true)) : sortByLe le l = l := by
  simpa using foldl_insertLe_of_sorted le l [] List.Pairwise.nil h (by simp)

lemma sortByLe_get_all (tm : TaskManager) :
    sortByLe idLe (get_all_tasks tm) = get_all_tasks tm :=
  sortByLe_of_pairwise idLe _
    (sortByLe_pairwise idLe idLe_total idLe_trans tm.tasks)

lemma applyTitle_frame (u : Task) (o : Option String) :
    (applyTitle u o).id = u.id ∧ (applyTitle u o).is_complete = u.is_complete ∧
    (applyTitle u o).recurrence_rule = u.recurrence_rule := by
  cases o <;> simp [applyTitle]

lemma applyDescription_frame (u : Task) (o : Option String) :
    (applyDescription u o).id = u.id ∧
    (applyDescription u o).is_complete = u.is_complete ∧
    (applyDescription u o).recurrence_rule = u.recurrence_rule := by
  cases o <;> simp [applyDescription]

lemma applyPriority_frame (u : Task) (o : Option String) :
    (applyPriority u o).id = u.id ∧
    (applyPriority u o).is_complete = u.is_complete ∧
    (applyPriority u o).recurrence_rule = u.recurrence_rule := by
  cases o <;> simp [applyPriority]

lemma applyCategory_frame (u : Task) (o : Option String) :
    (applyCategory u o).id = u.id ∧
    (applyCategory u o).is_complete = u.is_complete ∧
    (applyCategory u o).recurrence_rule = u.recurrence_rule := by
  cases o <;> simp [applyCategory]

lemma applyDueDate_frame (u : Task) (o : Option DateTime) :
    (applyDueDate u o).id = u.id ∧
    (applyDueDate u o).is_complete = u.is_complete ∧
    (applyDueDate u o).recurrence_rule = u.recurrence_rule := by
  cases o <;> simp [applyDueDate]

lemma setTask_tasks_length (tm : TaskManager) (t : Task) :
    (tm.setTask t).tasks.length = tm.tasks.length := by
  simp [TaskManager.setTask]

/-- Applying one optional write whose record keeps the frame fields of
the record currently stored under the id preserves the frame map, the
id uniqueness and the lookup. -/
lemma frame_step {β : Type} (tm0 : TaskManager) (task_id : Nat)
    (s : TaskManager) (u t : Task) (o : Option β)
    (h1 : s.tasks.map frameSig = tm0.tasks.map frameSig)
    (h2 : (s.tasks.map Task.id).Nodup)
    (h3 : s.find? task_id = some u)
    (hid : t.id = u.id) (hc : t.is_complete = u.is_complete)
    (hr : t.recurrence_rule = u.recurrence_rule) :
    (setIfSome s t o).tasks.map frameSig = tm0.tasks.map frameSig ∧
    ((setIfSome s t o).tasks.map Task.id).Nodup ∧
    (setIfSome s t o).find? task_id =
      some (match o with | none => u | some _ => t) := by
  cases o with
  | none => exact ⟨h1, h2, h3⟩
  | some b =>
    simp only [setIfSome]
    refine ⟨?_, ?_, ?_⟩
    · rw [setTask_map_frameSig s task_id u t h2 h3 hid hc hr]
      exact h1
    · rw [setTask_map_id]
      exact h2
    · exact find?_setTask s task_id u t h3 hid

lemma add_task_ok_inv {tm : TaskManager} {today : Date}
    {title description : String} {priority category : Option String}
    {due_date : Option DateTime} {recurrence_rule : Option String}
    {tm2 : TaskManager} {t : Task}
    (h : add_task tm today title description priority category due_date
      recurrence_rule = Except.ok (tm2, t)) :
    tm2.tasks = tm.tasks ++ [t] ∧ t.id = tm.next_id ∧
    tm2.next_id = tm.next_id + 1 := by
  simp only [add_task] at h
  split at h
  · simp at h
  split at h
  · simp at h
  split at h
  · simp at h
  split at h
  · simp at h
  split at h
  · simp at h
  split at h
  · simp at h
  split at h
  · simp at h
  simp only [Except.ok.injEq, Prod.mk.injEq] at h
  obtain ⟨h1, h2⟩ := h
  subst h2
  rw [← h1]
  exact ⟨rfl, rfl, rfl⟩

lemma delete_task_ok_inv {tm : TaskManager} {i : Nat} {tm2 : TaskManager}
    {r : Except TMErr Unit} (h : delete_task tm i = (tm2, r))
    (hr : r = Except.ok ()) :
    tm2.tasks = tm.tasks.filter (fun t => !(t.id == i)) ∧
    tm2.next_id = tm.next_id := by
  subst hr
  simp only [delete_task] at h
  split at h
  · simp at h
  · simp only [Prod.mk.injEq] at h
    obtain ⟨h1, _⟩ := h
    rw [← h1]
    exact ⟨rfl, rfl⟩

/-- All the ways `mark_complete` skips the recurrence spawn: target
state incomplete, no rule, no due date, or the falsy empty-string rule. -/
lemma mark_complete_no_spawn (tm : TaskManager) (today : Date) (i : Nat)
    (b : Bool) (task : Task) (hf : tm.find? i = some task)
    (hcase : b = false ∨ task.recurrence_rule = none ∨
      task.due_date = none ∨ task.recurrence_rule = some "") :
    mark_complete tm today i b =
      (tm.setTask { task with is_complete := b },
       Except.ok { task with is_complete := b }) := by
  rcases hcase with rfl | hr | hdd | hr
  · cases h1 : task.recurrence_rule <;> cases h2 : task.due_date <;>
      simp [mark_complete, hf, h1, h2]
  · cases b <;> cases h2 : task.due_date <;>
      simp [mark_complete, hf, hr, h2]
  · cases b <;> cases h1 : task.recurrence_rule <;>
      simp [mark_complete, hf, h1, hdd]
  · cases b <;> cases h2 : task.due_date <;>
      simp [mark_complete, hf, hr, h2]

/-- Every outcome of `mark_complete` either keeps the id list of the
store (no task created) or appends exactly the fresh id `next_id` and
bumps the counter. -/
lemma mark_complete_ids {tm : TaskManager} {today : Date} {i : Nat}
    {b : Bool} {tm2 : TaskManager} {r : Except TMErr Task}
    (h : mark_complete tm today i b = (tm2, r)) :
    (tm2.tasks.map Task.id = tm.tasks.map Task.id ∧
      tm2.next_id = tm.next_id) ∨
    (tm2.tasks.map Task.id = tm.tasks.map Task.id ++ [tm.next_id] ∧
      tm2.next_id = tm.next_id + 1) := by
  cases hfind : tm.find? i with
  | none =>
    rw [mark_complete_not_found tm today i b hfind] at h
    obtain ⟨h1, _⟩ := Prod.mk.injEq .. ▸ h
    left
    rw [← h1]
    exact ⟨rfl, rfl⟩
  | some task0 =>
    by_cases hsp : b = true ∧ (∃ rl, task0.recurrence_rule = some rl ∧ rl ≠ "") ∧
        ∃ d0, task0.due_date = some d0
    · obtain ⟨rfl, ⟨rl, hrl, hrlne⟩, d0, hd0⟩ := hsp
      rw [mark_complete_spawn tm today i task0 rl d0 hfind hrl hrlne hd0] at h
      rcases hA : add_task (tm.setTask { task0 with is_complete := true })
          today task0.title task0.description task0.priority task0.category
          (some (calculate_next_due_date d0 rl)) (some rl) with e | p
      · rw [hA] at h
        obtain ⟨h1, _⟩ := Prod.mk.injEq .. ▸ h
        left
        rw [← h1]
        exact ⟨setTask_map_id tm _, rfl⟩
      · obtain ⟨tm3, t3⟩ := p
        rw [hA] at h
        obtain ⟨e1, e2, e3⟩ := add_task_ok_inv hA
        obtain ⟨h1, _⟩ := Prod.mk.injEq .. ▸ h
        right
        rw [← h1]
        constructor
        · rw [e1]
          simp only [List.map_append, List.map_cons, List.map_nil]
          rw [setTask_map_id, e2]
          rfl
        · rw [e3]
          rfl
    · have hcase : b = false ∨ task0.recurrence_rule = none ∨
          task0.due_date = none ∨ task0.recurrence_rule = some "" := by
        by_cases hb : b = true
        · subst hb
          rcases h1 : task0.recurrence_rule with _ | rl
          · exact Or.inr (Or.inl rfl)
          · rcases h2 : task0.due_date with _ | d0
            · exact Or.inr (Or.inr (Or.inl rfl))
            · by_cases hrl : rl = ""
              · subst hrl
                exact Or.inr (Or.inr (Or.inr rfl))
              · exact absurd ⟨rfl, ⟨rl, h1, hrl⟩, d0, h2⟩ hsp
        · exact Or.inl (Bool.eq_false_iff.mpr hb)
      rw [mark_complete_no_spawn tm today i b task0 hfind hcase] at h
      obtain ⟨h1, _⟩ := Prod.mk.injEq .. ▸ h
      left
      rw [← h1]
      exact ⟨setTask_map_id tm _, rfl⟩

/-- Per-step id accounting: a step keeps the id list, appends exactly
the fresh `next_id` while bumping the counter, or removes ids. -/
lemma step_ids (tm tm2 : TaskManager) (h : Step tm tm2) :
    (tm2.tasks.map Task.id = tm.tasks.map Task.id ∧
      tm2.next_id = tm.next_id) ∨
    (tm2.tasks.map Task.id = tm.tasks.map Task.id ++ [tm.next_id] ∧
      tm2.next_id = tm.next_id + 1) ∨
    ((tm2.tasks.map Task.id).Sublist (tm.tasks.map Task.id) ∧
      tm2.next_id = tm.next_id) := by
  cases h with
  | create _ _ _ _ _ _ _ _ _ hadd =>
    obtain ⟨e1, e2, e3⟩ := add_task_ok_inv hadd
    right; left
    rw [e1, e3]
    simp [e2]
  | del _ _ hdel =>
    obtain ⟨e1, e2⟩ := delete_task_ok_inv hdel rfl
    right; right
    rw [e1, e2]
    exact ⟨(List.filter_sublist tm.tasks).map Task.id, rfl⟩
  | complete _ _ _ _ _ hmc =>
    rcases mark_complete_ids hmc with ⟨e1, e2⟩ | ⟨e1, e2⟩
    · left; exact ⟨e1, e2⟩
    · right; left; exact ⟨e1, e2⟩

lemma step_next_id_mono (tm tm2 : TaskManager) (h : Step tm tm2) :
    tm.next_id ≤ tm2.next_id := by
  rcases step_ids tm tm2 h with ⟨_, e⟩ | ⟨_, e⟩ | ⟨_, e⟩ <;> omega

lemma step_new_ids (tm tm2 : TaskManager) (h : Step tm tm2) :
    ∀ i, i ∈ tm2.tasks.map Task.id →
      i ∈ tm.tasks.map Task.id ∨
      (i = tm.next_id ∧ tm.next_id < tm2.next_id) := by
  intro i hi
  rcases step_ids tm tm2 h with ⟨e1, e2⟩ | ⟨e1, e2⟩ | ⟨e1, e2⟩
  · left; rw [e1] at hi; exact hi
  · rw [e1] at hi
    rcases List.mem_append.mp hi with h2 | h2
    · left; exact h2
    · right
      refine ⟨by simpa using h2, by omega⟩
  · left; exact e1.subset hi

lemma step_wf (tm tm2 : TaskManager) (h : Step tm tm2)
    (hw : tm.wf) : tm2.wf := by
  obtain ⟨hw1, hw2, hw3⟩ := hw
  have hmono := step_next_id_mono tm tm2 h
  refine ⟨?_, ?_, by omega⟩
  · intro t ht
    have hid : t.id ∈ tm2.tasks.map Task.id :=
      List.mem_map.mpr ⟨t, ht, rfl⟩
    rcases step_new_ids tm tm2 h t.id hid with h2 | ⟨h2, h3⟩
    · obtain ⟨u, hu, hui⟩ := List.mem_map.mp h2
      have := hw1 u hu
      omega
    · omega
  · rcases step_ids tm tm2 h with ⟨e1, _⟩ | ⟨e1, _⟩ | ⟨e1, _⟩
    · rw [e1]; exact hw2
    · rw [e1]
      rw [List.nodup_append]
      refine ⟨hw2, List.nodup_singleton _, ?_⟩
      intro i hi hi2
      have hi3 : i = tm.next_id := by simpa using hi2
      obtain ⟨u, hu, hui⟩ := List.mem_map.mp hi
      have := hw1 u hu
      omega
    · exact List.Nodup.sublist e1 hw2

lemma reachable_wf (tm : TaskManager) (h : Reachable tm) : tm.wf := by
  induction h with
  | init =>
    refine ⟨?_, ?_, ?_⟩
    · intro t ht; simp [TaskManager.init] at ht
    · simp [TaskManager.init]
    · exact le_refl 1
  | step tm tm2 _ hstep ih => exact step_wf tm tm2 hstep ih

lemma steps_next_id_mono (tm tm2 : TaskManager)
    (h : Relation.ReflTransGen Step tm tm2) : tm.next_id ≤ tm2.next_id := by
  induction h with
  | refl => exact le_refl _
  | tail _ hstep ih =>
    exact le_trans ih (step_next_id_mono _ _ hstep)

lemma steps_no_reuse (tm tm2 : TaskManager)
    (h : Relation.ReflTransGen Step tm tm2) :
    ∀ i, i < tm.next_id → i ∉ tm.tasks.map Task.id →
      i ∉ tm2.tasks.map Task.id := by
  induction h with
  | refl => intro i _ hi; exact hi
  | tail hsteps hstep ih =>
    rename_i b c
    intro i hlt hnotin hin
    rcases step_new_ids b c hstep i hin with h2 | ⟨h2, _⟩
    · exact ih i hlt hnotin h2
    · have := steps_next_id_mono _ _ hsteps
      omega

/-! ## Claims -/

set_option maxHeartbeats 1600000 in
/-- Claim C4: the recurrence date-advance function maps every due date
to due date + 1 day for rule daily, + 7 days for weekly, and for
monthly to the same day-of-month in the following month, clamped to
the last valid day of that month when the day does not exist
(including February and leap years), with December rolling over to
January of the next year; in particular 2026-01-08 daily advances to
2026-01-09, 2026-01-31 monthly to 2026-02-28, and 2026-12-15 monthly
to 2027-01-15. -/
theorem C4_recurrence_date_advance :
    (∀ dt : DateTime, dt.date.validB = true →
      (calculate_next_due_date dt "daily" =
          { dt with date := dt.date.addDays 1 } ∧
        toOrd (calculate_next_due_date dt "daily").date =
          toOrd dt.date + 1 ∧
        (calculate_next_due_date dt "daily").time = dt.time) ∧
      (calculate_next_due_date dt "weekly" =
          { dt with date := dt.date.addDays 7 } ∧
        toOrd (calculate_next_due_date dt "weekly").date =
          toOrd dt.date + 7 ∧
        (calculate_next_due_date dt "weekly").time = dt.time) ∧
      ((calculate_next_due_date dt "monthly").date =
          { year := if dt.date.month = 12 then dt.date.year + 1
              else dt.date.year,
            month := if dt.date.month = 12 then 1 else dt.date.month + 1,
            day := min dt.date.day
              (daysInMonth
                (if dt.date.month = 12 then dt.date.year + 1
                  else dt.date.year)
                (if dt.date.month = 12 then 1 else dt.date.month + 1)) } ∧
        (calculate_next_due_date dt "monthly").date.validB = true ∧
        (calculate_next_due_date dt "monthly").time = dt.time ∧
        (dt.date.day ≤ daysInMonth
            (if dt.date.month = 12 then dt.date.year + 1 else dt.date.year)
            (if dt.date.month = 12 then 1 else dt.date.month + 1) →
          (calculate_next_due_date dt "monthly").date.day =
            dt.date.day))) ∧
    calculate_next_due_date (quickDT 2026 1 8) "daily" = quickDT 2026 1 9 ∧
    calculate_next_due_date (quickDT 2026 1 31) "monthly" =
      quickDT 2026 2 28 ∧
    calculate_next_due_date (quickDT 2026 12 15) "monthly" =
      quickDT 2027 1 15 := by
  refine ⟨?_, by decide, by decide, by decide⟩
  intro dt hv
  have hne1 : ¬ ("weekly" : String) = "daily" := by decide
  have hne2 : ¬ ("monthly" : String) = "daily" := by decide
  have hne3 : ¬ ("monthly" : String) = "weekly" := by decide
  have hdaily : calculate_next_due_date dt "daily" =
      { dt with date := dt.date.addDays 1 } := by
    unfold calculate_next_due_date
    rw [if_pos rfl]
  have hweekly : calculate_next_due_date dt "weekly" =
      { dt with date := dt.date.addDays 7 } := by
    unfold calculate_next_due_date
    rw [if_neg hne1, if_pos rfl]
  have hmon : calculate_next_due_date dt "monthly" =
      { dt with date :=
        { year := if dt.date.month = 12 then dt.date.year + 1
            else dt.date.year,
          month := if dt.date.month = 12 then 1 else dt.date.month + 1,
          day := min dt.date.day
            (daysInMonth
              (if dt.date.month = 12 then dt.date.year + 1
                else dt.date.year)
              (if dt.date.month = 12 then 1 else dt.date.month + 1)) } } := by
    unfold calculate_next_due_date
    rw [if_neg hne2, if_neg hne3, if_pos rfl]
  refine ⟨⟨hdaily, ?_, ?_⟩, ⟨hweekly, ?_, ?_⟩, ?_, ?_, ?_, ?_⟩
  · have h1 := (toOrd_addDays dt.date 1 hv).1
    rw [hdaily]
    dsimp only
    exact h1
  · rw [hdaily]
  · have h7 := (toOrd_addDays dt.date 7 hv).1
    rw [hweekly]
    dsimp only
    exact h7
  · rw [hweekly]
  · rw [hmon]
  · rw [hmon]
    dsimp only
    simp only [Date.validB, Bool.and_eq_true, decide_eq_true_eq] at hv ⊢
    obtain ⟨⟨⟨⟨hy, hm1⟩, hm12⟩, hd1⟩, hdm⟩ := hv
    by_cases h12 : dt.date.month = 12 <;>
      simp only [h12, if_true, if_false, ite_true, ite_false] <;>
      refine ⟨⟨⟨⟨by omega, by omega⟩, by omega⟩, ?_⟩, by omega⟩ <;>
      [have := one_le_daysInMonth (dt.date.year + 1) 1;
       have := one_le_daysInMonth dt.date.year (dt.date.month + 1)] <;>
      omega
  · rw [hmon]
  · intro hle
    rw [hmon]
    dsimp only
    omega

/-- Closed instance for C4 at the claim's concrete date. -/
theorem C4_witness :
    (quickDT 2026 1 8).date.validB = true ∧
    toOrd (calculate_next_due_date (quickDT 2026 1 8) "daily").date =
      toOrd (quickDT 2026 1 8).date + 1 :=
  ⟨by decide,
   ((C4_recurrence_date_advance.1 (quickDT 2026 1 8) (by decide)).1).2.1⟩

/-- Claim C9: searching with the empty string as keyword returns every
task in the store in ascending id order, since the empty string is a
substring of every title and description. -/
theorem C9_search_empty_keyword (tm : TaskManager) :
    search_tasks tm "" = get_all_tasks tm ∧
    (search_tasks tm "").Perm tm.tasks ∧
    (search_tasks tm "").Pairwise (fun a b => a.id ≤ b.id) := by
  have hlow : strLower "" = "" := by decide
  have hempty : ∀ s : String, strContainsSub s (strLower "") = true := by
    intro s
    rw [hlow]
    unfold strContainsSub
    rw [List.any_eq_true]
    have h0 : ("" : String).toList = [] := by decide
    refine ⟨s.toList, (List.mem_tails _ _).mpr (List.suffix_refl _), ?_⟩
    rw [h0]
    cases s.toList <;> rfl
  have he : search_tasks tm "" = get_all_tasks tm := by
    simp only [search_tasks]
    apply List.filter_eq_self.mpr
    intro a _
    rw [hempty (strLower a.title)]
    rfl
  exact ⟨he, he ▸ get_all_tasks_perm tm, he ▸ get_all_tasks_sorted tm⟩

/-- Claim C10: for every sort key outside priority, title and due_date
(including the unsupported key category and arbitrary strings), the
sort operation never raises — it is the total id fallback branch — and
returns all tasks in ascending id order. -/
theorem C10_sort_unknown_key (tm : TaskManager) (key : String)
    (h : key ∉ (["priority", "title", "due_date"] : List String)) :
    sort_tasks tm key = get_all_tasks tm ∧
    (sort_tasks tm key).Perm tm.tasks ∧
    (sort_tasks tm key).Pairwise (fun a b => a.id ≤ b.id) := by
  have h1 : ¬ key = "priority" := fun e => h (by rw [e]; simp)
  have h2 : ¬ key = "title" := fun e => h (by rw [e]; simp)
  have h3 : ¬ key = "due_date" := fun e => h (by rw [e]; simp)
  have he : sort_tasks tm key = get_all_tasks tm := by
    simp only [sort_tasks]
    rw [if_neg h1, if_neg h2, if_neg h3]
    exact sortByLe_get_all tm
  exact ⟨he, he ▸ get_all_tasks_perm tm, he ▸ get_all_tasks_sorted tm⟩

/-- Closed instance for C10 at the unsupported key "category". -/
theorem C10_witness :
    ("category" ∉ (["priority", "title", "due_date"] : List String)) ∧
    (sort_tasks tmOverdue "category" = get_all_tasks tmOverdue ∧
      (sort_tasks tmOverdue "category").Perm tmOverdue.tasks ∧
      (sort_tasks tmOverdue "category").Pairwise
        (fun a b => a.id ≤ b.id)) :=
  ⟨by decide, C10_sort_unknown_key tmOverdue "category" (by decide)⟩

/-- Claim C3, amended: the overdue query returns exactly the incomplete
tasks whose due-date's calendar date is strictly before today's
calendar date, sorted ascending by id (not by due_date); a completed
task is never included even if its due date is in the past. -/
theorem C3_overdue_amended (tm : TaskManager) (today : Date) :
    (get_overdue_tasks tm today).Pairwise (fun a b => a.id ≤ b.id) ∧
    (∀ t : Task, t ∈ get_overdue_tasks tm today ↔
      (t ∈ tm.tasks ∧ t.is_complete = false ∧
        ∃ dd, t.due_date = some dd ∧ dd.date.beforeB today = true)) ∧
    (∀ t ∈ get_overdue_tasks tm today, t.is_complete = false) := by
  have hiff : ∀ t : Task, t ∈ get_overdue_tasks tm today ↔
      (t ∈ tm.tasks ∧ t.is_complete = false ∧
        ∃ dd, t.due_date = some dd ∧ dd.date.beforeB today = true) := by
    intro t
    simp only [get_overdue_tasks, List.mem_filter,
      (get_all_tasks_perm tm).mem_iff, Bool.and_eq_true, Bool.not_eq_true']
    cases hdd : t.due_date with
    | none => simp [hdd]
    | some dd => simp [hdd, and_assoc]
  refine ⟨(get_all_tasks_sorted tm).filter _, hiff, ?_⟩
  intro t ht
  exact ((hiff t).mp ht).2.1

/-- Closed instance for C3: an overdue incomplete task is in the
result and reported incomplete. -/
theorem C3_witness :
    taskOverdueA ∈ get_overdue_tasks tmOverdue todayW ∧
    taskOverdueA.is_complete = false :=
  ⟨by decide,
   (C3_overdue_amended tmOverdue todayW).2.2 taskOverdueA (by decide)⟩

/-- Counterexample to C3 as stated: with two overdue tasks whose id
order disagrees with their due-date order, the query returns them in
id order, so consecutive due dates strictly decrease. -/
theorem C3_counterexample :
    (get_overdue_tasks tmOverdue todayW).map Task.due_date =
      [some (quickDT 2026 1 5), some (quickDT 2026 1 3)] ∧
    (quickDT 2026 1 3).date.beforeB (quickDT 2026 1 5).date = true := by
  constructor <;> decide

/-- Claim C7: update with an id not present in the store returns
NotFoundError no matter which fields are supplied (including none),
and update with a known id but no fields supplied returns
ValidationError; in both cases the store is unchanged. -/
theorem C7_update_error_cases (tm : TaskManager) (today : Date)
    (task_id : Nat) (title description priority category : Option String)
    (due_date : Option DateTime) :
    (tm.find? task_id = none →
      update_task tm today task_id title description priority category
        due_date = (tm, Except.error (TMErr.notFound task_id))) ∧
    (∀ task, tm.find? task_id = some task →
      title = none → description = none → priority = none →
      category = none → due_date = none →
      update_task tm today task_id title description priority category
        due_date =
        (tm, Except.error (TMErr.validation
          "Must provide at least one field to update"))) := by
  constructor
  · intro h
    simp only [update_task, h]
  · intro task hf ht hd hp hc hdd
    subst ht; subst hd; subst hp; subst hc; subst hdd
    simp [update_task, hf]

/-- Closed instance for C7: unknown id 9 (with no fields) and known
id 1 with no fields. -/
theorem C7_witness :
    tmPlain.find? 9 = none ∧
    update_task tmPlain todayW 9 none none none none none =
      (tmPlain, Except.error (TMErr.notFound 9)) ∧
    tmPlain.find? 1 = some taskPlain ∧
    update_task tmPlain todayW 1 none none none none none =
      (tmPlain, Except.error (TMErr.validation
        "Must provide at least one field to update")) :=
  ⟨by decide,
   (C7_update_error_cases tmPlain todayW 9 none none none none
     none).1 (by decide),
   by decide,
   (C7_update_error_cases tmPlain todayW 1 none none none none
     none).2 taskPlain (by decide) rfl rfl rfl rfl rfl⟩

/-- Claim C8 (helper): one optional write of a record with unchanged
frame fields preserves `FrameInv`. -/
lemma frame_walk {β : Type} (tm0 : TaskManager) (task_id : Nat)
    (task : Task) (s : TaskManager) (t : Task) (o : Option β)
    (hs : FrameInv tm0 task_id task s)
    (hti : t.id = task.id) (htc : t.is_complete = task.is_complete)
    (htr : t.recurrence_rule = task.recurrence_rule) :
    FrameInv tm0 task_id task (setIfSome s t o) := by
  obtain ⟨h1, h2, u, hu, hui, huc, hur⟩ := hs
  obtain ⟨g1, g2, g3⟩ := frame_step tm0 task_id s u t o h1 h2 hu
    (by rw [hti, hui]) (by rw [htc, huc]) (by rw [htr, hur])
  refine ⟨g1, g2, ?_⟩
  cases o with
  | none => exact ⟨u, g3, hui, huc, hur⟩
  | some b => exact ⟨t, g3, hti, htc, htr⟩

/-- Claim C8: a successful or failing update never changes any stored
task's id, is_complete flag, or recurrence_rule — the update operation
exposes no parameter for these fields, so the frame projection of the
store is invariant under every update call. -/
theorem C8_update_frame_fields (tm : TaskManager) (today : Date)
    (task_id : Nat) (title description priority category : Option String)
    (due_date : Option DateTime)
    (hn : (tm.tasks.map Task.id).Nodup) :
    (update_task tm today task_id title description priority category
      due_date).1.tasks.map frameSig = tm.tasks.map frameSig := by
  cases hf : tm.find? task_id with
  | none => simp only [update_task, hf]
  | some task =>
    by_cases hall : title = none ∧ description = none ∧ priority = none ∧
        category = none ∧ due_date = none
    · simp only [update_task, hf, if_pos hall]
    · simp only [update_task, hf, if_neg hall]
      obtain ⟨c1, c2, c3, c4, c5, c6⟩ :=
        upd_title_chars tm today task title description priority category
          due_date
      have inv0 : FrameInv tm task_id task tm :=
        ⟨rfl, hn, task, hf, rfl, rfl, rfl⟩
      have ft1 := applyTitle_frame task title
      have inv1 := frame_walk tm task_id task tm (applyTitle task title)
        title inv0 ft1.1 ft1.2.1 ft1.2.2
      have ft2 := applyDescription_frame (applyTitle task title) description
      have inv2 := frame_walk tm task_id task _
        (applyDescription (applyTitle task title) description) description
        inv1 (ft2.1.trans ft1.1) (ft2.2.1.trans ft1.2.1)
        (ft2.2.2.trans ft1.2.2)
      have ft3 := applyPriority_frame
        (applyDescription (applyTitle task title) description) priority
      have inv3 := frame_walk tm task_id task _
        (applyPriority (applyDescription (applyTitle task title)
          description) priority) priority inv2
        (ft3.1.trans (ft2.1.trans ft1.1))
        (ft3.2.1.trans (ft2.2.1.trans ft1.2.1))
        (ft3.2.2.trans (ft2.2.2.trans ft1.2.2))
      have ft4 := applyCategory_frame
        (applyPriority (applyDescription (applyTitle task title)
          description) priority) category
      have inv4 := frame_walk tm task_id task _
        (applyCategory (applyPriority (applyDescription
          (applyTitle task title) description) priority) category)
        category inv3
        (ft4.1.trans (ft3.1.trans (ft2.1.trans ft1.1)))
        (ft4.2.1.trans (ft3.2.1.trans (ft2.2.1.trans ft1.2.1)))
        (ft4.2.2.trans (ft3.2.2.trans (ft2.2.2.trans ft1.2.2)))
      have ft5 := applyDueDate_frame
        (applyCategory (applyPriority (applyDescription
          (applyTitle task title) description) priority) category) due_date
      have inv5 := frame_walk tm task_id task _
        (applyDueDate (applyCategory (applyPriority (applyDescription
          (applyTitle task title) description) priority) category)
          due_date) due_date inv4
        (ft5.1.trans (ft4.1.trans (ft3.1.trans (ft2.1.trans ft1.1))))
        (ft5.2.1.trans (ft4.2.1.trans (ft3.2.1.trans
          (ft2.2.1.trans ft1.2.1))))
        (ft5.2.2.trans (ft4.2.2.trans (ft3.2.2.trans
          (ft2.2.2.trans ft1.2.2))))
      by_cases F1 : titleFails title
      · obtain ⟨msg, heq⟩ := c1 F1
        rw [heq]
      · by_cases F2 : descriptionFails description
        · obtain ⟨msg, heq⟩ := c2 F1 F2
          rw [heq]
          exact inv1.1
        · by_cases F3 : priorityFails priority
          · obtain ⟨msg, heq⟩ := c3 F1 F2 F3
            rw [heq]
            exact inv2.1
          · by_cases F4 : categoryFails category
            · obtain ⟨msg, heq⟩ := c4 F1 F2 F3 F4
              rw [heq]
              exact inv3.1
            · by_cases F5 : dueDateFails today due_date
              · obtain ⟨msg, heq⟩ := c5 F1 F2 F3 F4 F5
                rw [heq]
                exact inv4.1
              · rw [c6 F1 F2 F3 F4 F5]
                exact inv5.1

/-- Closed instance for C8: an update that changes the title leaves
the frame projection of the store unchanged. -/
theorem C8_witness :
    (tmPlain.tasks.map Task.id).Nodup ∧
    (update_task tmPlain todayW 1 (some "New") none none none
      none).1.tasks.map frameSig = tmPlain.tasks.map frameSig :=
  ⟨by decide,
   C8_update_frame_fields tmPlain todayW 1 (some "New") none none none
     none (by decide)⟩

/-- Collapsing one optional write on a store already written once:
writing nothing keeps the store, writing a record with the same id
overwrites the previous write. -/
lemma setIfSome_setTask {β : Type} (tm : TaskManager) (u t2 : Task)
    (o : Option β) (hnone : o = none → t2 = u) (hid : u.id = t2.id) :
    setIfSome (tm.setTask u) t2 o = tm.setTask t2 := by
  cases o with
  | none =>
    rw [hnone rfl]
    rfl
  | some b => exact setTask_setTask tm u t2 hid

/-- Counterexample to C1 as stated: updating title together with an
invalid priority raises a validation error, yet the stored task keeps
the new title — the task is not left completely unchanged. -/
theorem C1_counterexample :
    (update_task tmPlain todayW 1 (some "New") none (some "urgent") none
      none).2 =
      Except.error (TMErr.validation
        "Priority must be one of low, medium, high") ∧
    (update_task tmPlain todayW 1 (some "New") none (some "urgent") none
      none).1.find? 1 = some { taskPlain with title := "New" } ∧
    some { taskPlain with title := "New" } ≠ some taskPlain := by
  refine ⟨by decide, by decide, by decide⟩

/-- Claim C1, amended: if any supplied field fails its validation rule
the update raises a validation error, but the update is not atomic:
fields are validated and applied one at a time in the order title,
description, priority, category, due_date, so the supplied fields that
come strictly before the first failing one remain applied, while the
failing field and all later fields are left unchanged.  The task is
completely unchanged only when the first failing field is the earliest
supplied one; when every supplied field passes, all of them are
applied and the updated task is returned. -/
theorem C1_update_first_failure (tm : TaskManager) (today : Date)
    (task_id : Nat) (task : Task)
    (title description priority category : Option String)
    (due_date : Option DateTime)
    (hn : (tm.tasks.map Task.id).Nodup)
    (hf : tm.find? task_id = some task)
    (hsome : ¬ (title = none ∧ description = none ∧ priority = none ∧
      category = none ∧ due_date = none)) :
    (titleFails title →
      (update_task tm today task_id title description priority category
        due_date).1 = tm ∧
      ∃ msg, (update_task tm today task_id title description priority
        category due_date).2 = Except.error (TMErr.validation msg)) ∧
    (¬ titleFails title → descriptionFails description →
      (update_task tm today task_id title description priority category
        due_date).1 = tm.setTask (applyTitle task title) ∧
      ∃ msg, (update_task tm today task_id title description priority
        category due_date).2 = Except.error (TMErr.validation msg)) ∧
    (¬ titleFails title → ¬ descriptionFails description →
      priorityFails priority →
      (update_task tm today task_id title description priority category
        due_date).1 =
        tm.setTask (applyDescription (applyTitle task title)
          description) ∧
      ∃ msg, (update_task tm today task_id title description priority
        category due_date).2 = Except.error (TMErr.validation msg)) ∧
    (¬ titleFails title → ¬ descriptionFails description →
      ¬ priorityFails priority → categoryFails category →
      (update_task tm today task_id title description priority category
        due_date).1 =
        tm.setTask (applyPriority (applyDescription (applyTitle task
          title) description) priority) ∧
      ∃ msg, (update_task tm today task_id title description priority
        category due_date).2 = Except.error (TMErr.validation msg)) ∧
    (¬ titleFails title → ¬ descriptionFails description →
      ¬ priorityFails priority → ¬ categoryFails category →
      dueDateFails today due_date →
      (update_task tm today task_id title description priority category
        due_date).1 =
        tm.setTask (applyCategory (applyPriority (applyDescription
          (applyTitle task title) description) priority) category) ∧
      ∃ msg, (update_task tm today task_id title description priority
        category due_date).2 = Except.error (TMErr.validation msg)) ∧
    (¬ titleFails title → ¬ descriptionFails description →
      ¬ priorityFails priority → ¬ categoryFails category →
      ¬ dueDateFails today due_date →
      (update_task tm today task_id title description priority category
        due_date).1 =
        tm.setTask (applyDueDate (applyCategory (applyPriority
          (applyDescription (applyTitle task title) description)
          priority) category) due_date) ∧
      (update_task tm today task_id title description priority category
        due_date).2 =
        Except.ok (applyDueDate (applyCategory (applyPriority
          (applyDescription (applyTitle task title) description)
          priority) category) due_date)) := by
  obtain ⟨c1, c2, c3, c4, c5, c6⟩ :=
    upd_title_chars tm today task title description priority category
      due_date
  have hsetself : tm.setTask task = tm :=
    setTask_find_self tm task_id task hn hf
  have hupdate : update_task tm today task_id title description priority
      category due_date =
      upd_title tm today task title description priority category
        due_date := by
    simp only [update_task, hf, if_neg hsome]
  have col1 : setIfSome tm (applyTitle task title) title =
      tm.setTask (applyTitle task title) := by
    conv_lhs => rw [← hsetself]
    exact setIfSome_setTask tm task (applyTitle task title) title
      (fun h => by subst h; rfl) (applyTitle_frame task title).1.symm
  have col2 : setIfSome (setIfSome tm (applyTitle task title) title)
      (applyDescription (applyTitle task title) description)
      description =
      tm.setTask (applyDescription (applyTitle task title)
        description) := by
    rw [col1]
    exact setIfSome_setTask tm (applyTitle task title) _ description
      (fun h => by subst h; rfl)
      (applyDescription_frame (applyTitle task title) description).1.symm
  have col3 : setIfSome (setIfSome (setIfSome tm (applyTitle task title)
      title) (applyDescription (applyTitle task title) description)
      description)
      (applyPriority (applyDescription (applyTitle task title)
        description) priority) priority =
      tm.setTask (applyPriority (applyDescription (applyTitle task
        title) description) priority) := by
    rw [col2]
    exact setIfSome_setTask tm _ _ priority
      (fun h => by subst h; rfl)
      (applyPriority_frame _ priority).1.symm
  have col4 : setIfSome (setIfSome (setIfSome (setIfSome tm
      (applyTitle task title) title)
      (applyDescription (applyTitle task title) description)
      description)
      (applyPriority (applyDescription (applyTitle task title)
        description) priority) priority)
      (applyCategory (applyPriority (applyDescription (applyTitle task
        title) description) priority) category) category =
      tm.setTask (applyCategory (applyPriority (applyDescription
        (applyTitle task title) description) priority) category) := by
    rw [col3]
    exact setIfSome_setTask tm _ _ category
      (fun h => by subst h; rfl)
      (applyCategory_frame _ category).1.symm
  have col5 : setIfSome (setIfSome (setIfSome (setIfSome (setIfSome tm
      (applyTitle task title) title)
      (applyDescription (applyTitle task title) description)
      description)
      (applyPriority (applyDescription (applyTitle task title)
        description) priority) priority)
      (applyCategory (applyPriority (applyDescription (applyTitle task
        title) description) priority) category) category)
      (applyDueDate (applyCategory (applyPriority (applyDescription
        (applyTitle task title) description) priority) category)
        due_date) due_date =
      tm.setTask (applyDueDate (applyCategory (applyPriority
        (applyDescription (applyTitle task title) description)
        priority) category) due_date) := by
    rw [col4]
    exact setIfSome_setTask tm _ _ due_date
      (fun h => by subst h; rfl)
      (applyDueDate_frame _ due_date).1.symm
  refine ⟨?_, ?_, ?_, ?_, ?_, ?_⟩
  · intro F1
    obtain ⟨msg, heq⟩ := c1 F1
    rw [hupdate, heq]
    exact ⟨rfl, msg, rfl⟩
  · intro F1 F2
    obtain ⟨msg, heq⟩ := c2 F1 F2
    rw [hupdate, heq]
    exact ⟨col1, msg, rfl⟩
  · intro F1 F2 F3
    obtain ⟨msg, heq⟩ := c3 F1 F2 F3
    rw [hupdate, heq]
    exact ⟨col2, msg, rfl⟩
  · intro F1 F2 F3 F4
    obtain ⟨msg, heq⟩ := c4 F1 F2 F3 F4
    rw [hupdate, heq]
    exact ⟨col3, msg, rfl⟩
  · intro F1 F2 F3 F4 F5
    obtain ⟨msg, heq⟩ := c5 F1 F2 F3 F4 F5
    rw [hupdate, heq]
    exact ⟨col4, msg, rfl⟩
  · intro F1 F2 F3 F4 F5
    rw [hupdate, c6 F1 F2 F3 F4 F5]
    exact ⟨col5, rfl⟩

/-- Closed instance for C1: the counterexample scenario run through
the amended theorem — the priority fails, and exactly the title (the
only supplied field before it) remains applied. -/
theorem C1_witness :
    (update_task tmPlain todayW 1 (some "New") none (some "urgent") none
      none).1 =
      tmPlain.setTask (applyDescription (applyTitle taskPlain
        (some "New")) none) ∧
    ∃ msg, (update_task tmPlain todayW 1 (some "New") none
      (some "urgent") none none).2 =
      Except.error (TMErr.validation msg) :=
  (C1_update_first_failure tmPlain todayW 1 taskPlain (some "New") none
    (some "urgent") none none (by decide) (by decide)
    (by simp)).2.2.1 (by simp only [titleFails]; decide)
    (by simp only [descriptionFails]; decide)
    (by simp only [priorityFails]; decide)

/-- Counterexample to C2 as stated: completing a daily recurring task
whose due date lies in the past raises a validation error from the
re-enforced "due date not in the past" check, and no new task is
created (the store still holds a single task, already marked
complete). -/
theorem C2_counterexample :
    (mark_complete tmRecPast todayW 1 true).2 =
      Except.error (TMErr.validation "Due date must be in the future") ∧
    (mark_complete tmRecPast todayW 1 true).1.tasks.length = 1 ∧
    (mark_complete tmRecPast todayW 1 true).1.find? 1 =
      some { taskRecPast with is_complete := true } := by
  refine ⟨by decide, by decide, by decide⟩

/-- Claim C2, amended: completing a task with a non-null
recurrence_rule and non-null due_date runs the spawn through the
normal creation path, so the "due date not in the past" check IS
re-enforced on the computed date.  When the computed next due date is
on or after today it trivially passes and exactly one new task is
created — same title, description and priority, the category run
through the creation-path defaulting, the same recurrence_rule, the
due_date advanced by the recurrence step, is_complete false and the
fresh id next_id.  When the computed date is strictly before today the
call raises a validation error, creates nothing, and the original task
is nevertheless left marked complete. -/
theorem C2_spawn_cases (tm : TaskManager) (today : Date) (task_id : Nat)
    (task : Task) (r : String) (d : DateTime)
    (hf : tm.find? task_id = some task)
    (hr : task.recurrence_rule = some r)
    (hrv : r ∈ VALID_RECURRENCE_RULES)
    (hd : task.due_date = some d)
    (h1 : strip task.title = task.title) (h2 : task.title ≠ "")
    (h3 : task.title.length ≤ MAX_TITLE_LENGTH)
    (h4 : task.description.length ≤ MAX_DESCRIPTION_LENGTH)
    (h5 : validate_priority task.priority = Except.ok ())
    (h6 : validate_category task.category = Except.ok ()) :
    ((calculate_next_due_date d r).date.beforeB today = false →
      mark_complete tm today task_id true =
        ({ tasks :=
            (tm.setTask { task with is_complete := true }).tasks ++
            [{ id := tm.next_id, title := task.title,
               description := task.description, is_complete := false,
               priority := task.priority,
               category := defaultedCategory task.category,
               due_date := some (calculate_next_due_date d r),
               recurrence_rule := some r }],
           next_id := tm.next_id + 1 },
         Except.ok { task with is_complete := true })) ∧
    ((calculate_next_due_date d r).date.beforeB today = true →
      mark_complete tm today task_id true =
        (tm.setTask { task with is_complete := true },
         Except.error
           (TMErr.validation "Due date must be in the future"))) := by
  have hrne : r ≠ "" := by
    simp only [VALID_RECURRENCE_RULES, List.mem_cons,
      List.not_mem_nil, or_false] at hrv
    rcases hrv with rfl | rfl | rfl <;> decide
  have hvr : validate_recurrence_rule (some r) = Except.ok () := by
    simp [validate_recurrence_rule, hrv]
  have ht0 : strip task.title ≠ "" := by rw [h1]; exact h2
  have ht3 : (strip task.title).length ≤ MAX_TITLE_LENGTH := by
    rw [h1]; exact h3
  have hspawn := mark_complete_spawn tm today task_id task r d hf hr
    hrne hd
  constructor
  · intro hb
    have hvd : validate_due_date today
        (some (calculate_next_due_date d r)) = Except.ok () := by
      simp [validate_due_date, hb]
    rw [hspawn,
      add_task_of_valid_ok (tm.setTask { task with is_complete := true })
        today task.title task.description task.priority task.category
        (some (calculate_next_due_date d r)) (some r) ht0 ht3 h4 h5 h6
        hvd hvr]
    simp only [h1, setTask_next_id]
  · intro hb
    have hvd : validate_due_date today
        (some (calculate_next_due_date d r)) =
        Except.error
          (TMErr.validation "Due date must be in the future") := by
      simp [validate_due_date, hb]
    rw [hspawn,
      add_task_of_valid_err (tm.setTask { task with is_complete := true })
        today task.title task.description task.priority task.category
        (some (calculate_next_due_date d r)) (some r) _ ht0 ht3 h4 h5 h6
        hvd]

/-- Closed instance for C2: a daily task due today spawns exactly one
follow-up task due tomorrow. -/
theorem C2_witness :
    mark_complete tmRecToday todayW 1 true =
      ({ tasks :=
          (tmRecToday.setTask
            { taskRecToday with is_complete := true }).tasks ++
          [{ id := tmRecToday.next_id, title := taskRecToday.title,
             description := taskRecToday.description,
             is_complete := false, priority := taskRecToday.priority,
             category := defaultedCategory taskRecToday.category,
             due_date :=
               some (calculate_next_due_date (quickDT 2026 1 10) "daily"),
             recurrence_rule := some "daily" }],
         next_id := tmRecToday.next_id + 1 },
       Except.ok { taskRecToday with is_complete := true }) :=
  (C2_spawn_cases tmRecToday todayW 1 taskRecToday "daily"
    (quickDT 2026 1 10) (by decide) (by decide) (by decide) (by decide)
    (by decide) (by decide) (by decide) (by decide) (by decide)
    (by decide)).1 (by decide)

/-- Counterexample to C5 as stated: on a daily recurring task whose
due date is already past, a repeated `set_complete(id, true)` call —
the task is already complete after the first call — raises the
re-enforced date validation and creates no new task, so not every
repeated completion call spawns one. -/
theorem C5_counterexample :
    (mark_complete tmRecPast todayW 1 true).1.find? 1 =
      some { taskRecPast with is_complete := true } ∧
    (mark_complete (mark_complete tmRecPast todayW 1 true).1 todayW 1
      true).2 =
      Except.error (TMErr.validation "Due date must be in the future") ∧
    (mark_complete (mark_complete tmRecPast todayW 1 true).1 todayW 1
      true).1.tasks.length = 1 := by
  refine ⟨by decide, by decide, by decide⟩

/-- Claim C5, amended: marking a non-recurring task complete twice in
a row leaves it complete with no extra tasks created (idempotent),
while for a task with a recurrence rule and a due date every
`set_complete(id, true)` call — the completion flag of the stored task
is arbitrary, so in particular a task already complete — re-runs the
recurrence spawn, whose date check is re-enforced on the computed
date: each call creates exactly one new task when the computed next
due date is on or after today, and raises a validation error creating
no task when the computed date is strictly before today. -/
theorem C5_idempotence_and_respawn (tm : TaskManager) (today : Date)
    (task_id : Nat) (task : Task)
    (hf : tm.find? task_id = some task) :
    (task.recurrence_rule = none →
      mark_complete tm today task_id true =
        (tm.setTask { task with is_complete := true },
         Except.ok { task with is_complete := true }) ∧
      mark_complete (tm.setTask { task with is_complete := true }) today
        task_id true =
        (tm.setTask { task with is_complete := true },
         Except.ok { task with is_complete := true }) ∧
      (mark_complete tm today task_id true).1.tasks.length =
        tm.tasks.length) ∧
    (∀ r d, task.recurrence_rule = some r → r ∈ VALID_RECURRENCE_RULES →
      task.due_date = some d →
      strip task.title = task.title → task.title ≠ "" →
      task.title.length ≤ MAX_TITLE_LENGTH →
      task.description.length ≤ MAX_DESCRIPTION_LENGTH →
      validate_priority task.priority = Except.ok () →
      validate_category task.category = Except.ok () →
      ((calculate_next_due_date d r).date.beforeB today = false →
        mark_complete tm today task_id true =
          ({ tasks :=
              (tm.setTask { task with is_complete := true }).tasks ++
              [{ id := tm.next_id, title := task.title,
                 description := task.description, is_complete := false,
                 priority := task.priority,
                 category := defaultedCategory task.category,
                 due_date := some (calculate_next_due_date d r),
                 recurrence_rule := some r }],
             next_id := tm.next_id + 1 },
           Except.ok { task with is_complete := true }) ∧
        (mark_complete tm today task_id true).1.tasks.length =
          tm.tasks.length + 1) ∧
      ((calculate_next_due_date d r).date.beforeB today = true →
        mark_complete tm today task_id true =
          (tm.setTask { task with is_complete := true },
           Except.error
             (TMErr.validation "Due date must be in the future")) ∧
        (mark_complete tm today task_id true).1.tasks.length =
          tm.tasks.length)) := by
  constructor
  · intro hr
    have e1 := mark_complete_rule_none tm today task_id true task hf hr
    have hctfind : (tm.setTask { task with is_complete := true }).find?
        task_id = some { task with is_complete := true } :=
      find?_setTask tm task_id task { task with is_complete := true }
        hf rfl
    have e2 := mark_complete_rule_none
      (tm.setTask { task with is_complete := true }) today task_id true
      { task with is_complete := true } hctfind hr
    have hcc : ({ { task with is_complete := true } with
        is_complete := true } : Task) =
        { task with is_complete := true } := rfl
    rw [hcc] at e2
    refine ⟨e1, ?_, ?_⟩
    · rw [e2, setTask_setTask tm { task with is_complete := true }
        { task with is_complete := true } rfl]
    · rw [e1]
      exact setTask_tasks_length tm { task with is_complete := true }
  · intro r d hr hrv hd hh1 hh2 hh3 hh4 hh5 hh6
    have hrne : r ≠ "" := by
      simp only [VALID_RECURRENCE_RULES, List.mem_cons,
        List.not_mem_nil, or_false] at hrv
      rcases hrv with rfl | rfl | rfl <;> decide
    have hvr : validate_recurrence_rule (some r) = Except.ok () := by
      simp [validate_recurrence_rule, hrv]
    have ht0 : strip task.title ≠ "" := by rw [hh1]; exact hh2
    have ht3 : (strip task.title).length ≤ MAX_TITLE_LENGTH := by
      rw [hh1]; exact hh3
    constructor
    · intro hb
      have hvd : validate_due_date today
          (some (calculate_next_due_date d r)) = Except.ok () := by
        simp [validate_due_date, hb]
      have e1 : mark_complete tm today task_id true =
          ({ tasks :=
              (tm.setTask { task with is_complete := true }).tasks ++
              [{ id := tm.next_id, title := task.title,
                 description := task.description, is_complete := false,
                 priority := task.priority,
                 category := defaultedCategory task.category,
                 due_date := some (calculate_next_due_date d r),
                 recurrence_rule := some r }],
             next_id := tm.next_id + 1 },
           Except.ok { task with is_complete := true }) := by
        rw [mark_complete_spawn tm today task_id task r d hf hr hrne hd,
          add_task_of_valid_ok
            (tm.setTask { task with is_complete := true }) today
            task.title task.description task.priority task.category
            (some (calculate_next_due_date d r)) (some r) ht0 ht3 hh4
            hh5 hh6 hvd hvr]
        simp only [hh1, setTask_next_id]
      refine ⟨e1, ?_⟩
      rw [e1]
      simp only [List.length_append, List.length_cons, List.length_nil]
      rw [setTask_tasks_length]
    · intro hb
      have hvd : validate_due_date today
          (some (calculate_next_due_date d r)) =
          Except.error
            (TMErr.validation "Due date must be in the future") := by
        simp [validate_due_date, hb]
      have e1 : mark_complete tm today task_id true =
          (tm.setTask { task with is_complete := true },
           Except.error
             (TMErr.validation "Due date must be in the future")) := by
        rw [mark_complete_spawn tm today task_id task r d hf hr hrne hd,
          add_task_of_valid_err
            (tm.setTask { task with is_complete := true }) today
            task.title task.description task.priority task.category
            (some (calculate_next_due_date d r)) (some r) _ ht0 ht3 hh4
            hh5 hh6 hvd]
      refine ⟨e1, ?_⟩
      rw [e1]
      exact setTask_tasks_length tm { task with is_complete := true }

/-- Closed instance for C5: the daily task due today spawns on the
first completion and again on a repeated completion of the — by then
already complete — task; the plain task completes with no new task;
and a repeated completion of the past-due recurring task creates
nothing. -/
theorem C5_witness :
    (mark_complete tmRecToday todayW 1 true).1.tasks.length =
      tmRecToday.tasks.length + 1 ∧
    (mark_complete (mark_complete tmRecToday todayW 1 true).1 todayW 1
      true).1.tasks.length =
      (mark_complete tmRecToday todayW 1 true).1.tasks.length + 1 ∧
    (mark_complete tmPlain todayW 1 true).1.tasks.length =
      tmPlain.tasks.length ∧
    (mark_complete (mark_complete tmRecPast todayW 1 true).1 todayW 1
      true).1.tasks.length =
      (mark_complete tmRecPast todayW 1 true).1.tasks.length :=
  ⟨(((C5_idempotence_and_respawn tmRecToday todayW 1 taskRecToday
      (by decide)).2 "daily" (quickDT 2026 1 10) (by decide) (by decide)
      (by decide) (by decide) (by decide) (by decide) (by decide)
      (by decide) (by decide)).1 (by decide)).2,
   (((C5_idempotence_and_respawn (mark_complete tmRecToday todayW 1
      true).1 todayW 1 { taskRecToday with is_complete := true }
      (by decide)).2 "daily" (quickDT 2026 1 10) (by decide) (by decide)
      (by decide) (by decide) (by decide) (by decide) (by decide)
      (by decide) (by decide)).1 (by decide)).2,
   ((C5_idempotence_and_respawn tmPlain todayW 1 taskPlain
      (by decide)).1 (by decide)).2.2,
   (((C5_idempotence_and_respawn (mark_complete tmRecPast todayW 1
      true).1 todayW 1 { taskRecPast with is_complete := true }
      (by decide)).2 "daily" (quickDT 2026 1 8) (by decide) (by decide)
      (by decide) (by decide) (by decide) (by decide) (by decide)
      (by decide) (by decide)).2 (by decide)).2⟩

/-- Claim C6: over every sequence of successful create, delete and
completion (recurrence-spawn) operations from a fresh store, ids are
unique, lie in [1, next_id), the counter starts at 1, a step only ever
introduces the current next_id as a new id while strictly increasing
the counter past it (so assigned ids are strictly increasing starting
at 1), and an id freed by deletion is never assigned again. -/
theorem C6_id_assignment (tm : TaskManager) (h : Reachable tm) :
    tm.wf ∧
    TaskManager.init.next_id = 1 ∧
    (∀ tm2, Step tm tm2 → tm.next_id ≤ tm2.next_id ∧
      (∀ i, i ∈ tm2.tasks.map Task.id →
        i ∈ tm.tasks.map Task.id ∨
        (i = tm.next_id ∧ tm.next_id < tm2.next_id))) ∧
    (∀ tm2, Relation.ReflTransGen Step tm tm2 →
      ∀ i, i < tm.next_id → i ∉ tm.tasks.map Task.id →
        i ∉ tm2.tasks.map Task.id) := by
  refine ⟨reachable_wf tm h, rfl, ?_, ?_⟩
  · intro tm2 hstep
    exact ⟨step_next_id_mono tm tm2 hstep, step_new_ids tm tm2 hstep⟩
  · intro tm2 hsteps
    exact steps_no_reuse tm tm2 hsteps

/-- Closed instance for C6: the fresh store counts from 1 and the
first creation assigns exactly id 1. -/
theorem C6_witness :
    TaskManager.init.next_id = 1 ∧
    (1 ∈ TaskManager.init.tasks.map Task.id ∨
      (1 = TaskManager.init.next_id ∧
        TaskManager.init.next_id < tmPlain.next_id)) :=
  ⟨(C6_id_assignment TaskManager.init Reachable.init).2.1,
   ((C6_id_assignment TaskManager.init Reachable.init).2.2.1 tmPlain
     (Step.create TaskManager.init todayW "Old" "" none (some "General")
       none none tmPlain taskPlain (by decide))).2 1 (by decide)⟩

end Todo
